import Mathlib

/-!
Verification of the `pathwaylistfile` repository: a parser/indexer for the
KEGG `pathway.list` line format.

The Python class `PathwayListFile` (file `pathwaylistfile/pathwaylistfile.py`)
is shallowly embedded here:

  * each regex-based line classifier / extractor becomes a Lean function on
    `String` (Python `re.search` with a `^`-anchored pattern and no flags
    matches only at position 0, so each check is a prefix test);
  * `dict` becomes an insertion-ordered association list `AList`
    (assignment updates an existing key in place, otherwise appends);
  * the mutable instance attributes become the record `PState`, threaded
    through an explicit fold over the input lines;
  * Python exceptions (`NameError` for an unbound local, `KeyError` for a
    missing dict key) become `Except (String × PState)`: the error also
    carries the instance state at the moment the exception escapes, since
    mutations made before the raise survive on the Python object;
  * `list(set(xs))` is modelled as `xs.dedup`; only the underlying set of a
    materialized Python `set` is observable in the properties proved below.
-/

namespace PathwayListFile

/-- ASCII uppercase, the character class `[A-Z]` of the source regexes. -/
def isUpperAZ (c : Char) : Bool := 'A' ≤ c && c ≤ 'Z'

/-- ASCII decimal digit, the character class `[0-9]` of the source regexes. -/
def isDigit09 (c : Char) : Bool := '0' ≤ c && c ≤ '9'

/-- Python regex `\s` restricted to the ASCII whitespace characters. -/
def isPySpace (c : Char) : Bool :=
  c == ' ' || c == '\t' || c == '\n' || c == '\r' || c == '\x0b' || c == '\x0c'

/-- `line.rstrip('\r\n')`: drop every trailing CR or LF character. -/
def pyRstripNL (s : String) : String :=
  String.mk ((s.data.reverse.dropWhile (fun c => c == '\n' || c == '\r')).reverse)

/-- `line.replace('#','')`: remove every `#` character. -/
def stripHashes (s : String) : String :=
  String.mk (s.data.filter (fun c => c != '#'))

/-- `is_metabolic_super_class`: `re.search('^#[A-Z]', s)` is a match, i.e. the
string starts with `#` and then an uppercase ASCII letter. -/
def is_metabolic_super_class (s : String) : Bool :=
  match s.data with
  | c0 :: c1 :: _ => c0 == '#' && isUpperAZ c1
  | _ => false

/-- `is_metabolic_class`: `re.search('^##[A-Z]', s)` is a match. -/
def is_metabolic_class (s : String) : Bool :=
  match s.data with
  | c0 :: c1 :: c2 :: _ => c0 == '#' && (c1 == '#' && isUpperAZ c2)
  | _ => false

/-- Helper for the map-record regex: the maximal leading digit run must be
nonempty and be followed by one `\s` character (`^([0-9]{1,})\s.*`; greedy
matching with backtracking can only succeed on the maximal run, because a
digit is never `\s`). -/
def mapRecordShape (cs : List Char) : Bool :=
  !(cs.takeWhile isDigit09).isEmpty &&
    (match cs.dropWhile isDigit09 with
     | c :: _ => isPySpace c
     | [] => false)

/-- `is_metabolic_map_record`: `re.search("^([0-9]{1,})\s.*", s)` is a match. -/
def is_metabolic_map_record (s : String) : Bool :=
  mapRecordShape s.data

/-- `metabolic_pathway_map_number`: group 1 of `^([0-9]{1,})\s.*`, i.e. the
leading digit run; `none` models the `AttributeError` Python raises when
`.group` is called on a failed search. -/
def metabolic_pathway_map_number (s : String) : Option String :=
  if mapRecordShape s.data then some (String.mk (s.data.takeWhile isDigit09))
  else none

/-- `metabolic_pathway_map_name`: group 1 of `^[0-9]{1,}\s(.*)` (the rest of
the line after the digit run and one whitespace character, truncated at the
first `'\n'` because `.` does not match a newline), then
`re.sub('^\ {1,}', '', _)` which strips leading space characters only. -/
def metabolic_pathway_map_name (s : String) : Option String :=
  if mapRecordShape s.data then
    some (String.mk ((((s.data.dropWhile isDigit09).tail).takeWhile
      (fun c => c != '\n')).dropWhile (fun c => c == ' ')))
  else none

/-- Insertion-ordered dictionary with `String` keys, modelling Python `dict`. -/
abbrev AList (α : Type) : Type := List (String × α)

/-- `d[k]`, as an `Option`: the value at the first (unique) matching key. -/
def alookup {α : Type} : AList α → String → Option α
  | [], _ => none
  | (k, v) :: d, key => if k == key then some v else alookup d key

/-- `d[k] = v`: update an existing key in place, otherwise append. -/
def ainsert {α : Type} : AList α → String → α → AList α
  | [], key, v => [(key, v)]
  | (k, w) :: d, key, v =>
      if k == key then (key, v) :: d else (k, w) :: ainsert d key v

/-- `list(d.keys())`. -/
def akeys {α : Type} (d : AList α) : List String := d.map Prod.fst

/-- One value of `maps_and_pathways`:
`{'map_name': ..., 'superclass': ..., 'class': ...}`. -/
structure MapRecord where
  map_name : String
  superclass : String
  class_ : String
deriving Repr, DecidableEq

/-- The mutable attribute state of a `PathwayListFile` instance, together
with the two loop-local variables `current_super_class` / `current_class`
(unbound Python locals are `none`; reading them then raises `NameError`). -/
structure PState where
  metabolic_pathways : AList (AList (AList String))
  maps_and_pathways : AList MapRecord
  metabolic_pathways_names : List String
  metabolic_pathways_map_numbers : List String
  metabolic_pathways_super_classes : List String
  metabolic_pathways_classes : List String
  current_super_class : Option String
  current_class : Option String
deriving Repr, DecidableEq

/-- The state set up by `__init__`. -/
def initState : PState :=
  { metabolic_pathways := []
    maps_and_pathways := []
    metabolic_pathways_names := []
    metabolic_pathways_map_numbers := []
    metabolic_pathways_super_classes := []
    metabolic_pathways_classes := []
    current_super_class := none
    current_class := none }

/-- The superclass branch of the loop body: on a superclass marker, strip the
`#` characters, assign `metabolic_pathways[line] = {}` (unconditionally) and
set `current_super_class`; otherwise leave line and state unchanged. -/
def superStep (st : PState) (line : String) : String × PState :=
  if is_metabolic_super_class line then
    let name := stripHashes line
    (name,
      { st with
        metabolic_pathways := ainsert st.metabolic_pathways name []
        current_super_class := some name })
  else (line, st)

/-- The class branch: on a class marker, strip the `#` characters and assign
`metabolic_pathways[current_super_class][line] = {}` (unconditionally),
raising `NameError` if `current_super_class` is unbound and `KeyError` if it
is not a key of the outer dict. -/
def classStep (st : PState) (line : String) :
    Except (String × PState) (String × PState) :=
  if is_metabolic_class line then
    match st.current_super_class with
    | none => Except.error ("NameError: current_super_class", st)
    | some csc =>
      match alookup st.metabolic_pathways csc with
      | none => Except.error ("KeyError", st)
      | some inner =>
        let name := stripHashes line
        Except.ok (name,
          { st with
            metabolic_pathways :=
              ainsert st.metabolic_pathways csc (ainsert inner name [])
            current_class := some name })
  else Except.ok (line, st)

/-- The map-record branch: extract number and name, then write into the
hierarchy, the flat index and the four lists, in the evaluation order of the
source (`current_super_class` is read before `current_class`, and each dict
is indexed as soon as the preceding subscript is evaluated). -/
def mapStep (st : PState) (line : String) : Except (String × PState) PState :=
  if is_metabolic_map_record line then
    match metabolic_pathway_map_number line, metabolic_pathway_map_name line with
    | some map_number, some map_name =>
      match st.current_super_class with
      | none => Except.error ("NameError: current_super_class", st)
      | some csc =>
        match alookup st.metabolic_pathways csc with
        | none => Except.error ("KeyError", st)
        | some inner =>
          match st.current_class with
          | none => Except.error ("NameError: current_class", st)
          | some ccl =>
            match alookup inner ccl with
            | none => Except.error ("KeyError", st)
            | some maps =>
              Except.ok
                { st with
                  metabolic_pathways :=
                    ainsert st.metabolic_pathways csc
                      (ainsert inner ccl (ainsert maps map_number map_name))
                  maps_and_pathways :=
                    ainsert st.maps_and_pathways map_number
                      { map_name := map_name, superclass := csc, class_ := ccl }
                  metabolic_pathways_names :=
                    st.metabolic_pathways_names ++ [map_name]
                  metabolic_pathways_map_numbers :=
                    st.metabolic_pathways_map_numbers ++ [map_number]
                  metabolic_pathways_super_classes :=
                    st.metabolic_pathways_super_classes ++ [csc]
                  metabolic_pathways_classes :=
                    st.metabolic_pathways_classes ++ [ccl] }
    | _, _ => Except.error ("AttributeError", st)
  else Except.ok st

/-- The loop body of `generate_metabolic_pathway_data` for one raw line:
`line = line.rstrip('\r\n')`, then the three `if` blocks in sequence, each
later block seeing the `line` variable as rewritten by an earlier block. -/
def processLine (st : PState) (raw : String) : Except (String × PState) PState :=
  let line := pyRstripNL raw
  let step1 := superStep st line
  match classStep step1.2 step1.1 with
  | Except.error e => Except.error e
  | Except.ok (line2, st2) => mapStep st2 line2

/-- `generate_metabolic_pathway_data`: fold the loop body over the lines of
the input file (the file content is modelled as its list of lines). -/
def generate_metabolic_pathway_data :
    PState → List String → Except (String × PState) PState
  | st, [] => Except.ok st
  | st, raw :: rest =>
    match processLine st raw with
    | Except.error e => Except.error e
    | Except.ok t => generate_metabolic_pathway_data t rest

/-- Successful result of an `Except` computation, used to state properties. -/
def runOk {ε α : Type} : Except ε α → Option α
  | Except.ok a => some a
  | Except.error _ => none

/-- Error of an `Except` computation, used to state properties. -/
def runErr {ε α : Type} : Except ε α → Option ε
  | Except.ok _ => none
  | Except.error e => some e

/-- The full build pass run from a fresh instance. -/
def parsePathwayFile (file : List String) : Option PState :=
  runOk (generate_metabolic_pathway_data initState file)

/-- `list(set(xs))`; only the underlying set is observable below. -/
def pySetList (xs : List String) : List String := xs.dedup

/-- `get_maps_and_pathways`: build on first use (guarded by
`len(maps_and_pathways) == 0`), then return the flat index.  The `Bool`
records whether this call ran the build pass. -/
def get_maps_and_pathways (file : List String) (st : PState) :
    Except (String × PState) (AList MapRecord × PState × Bool) :=
  if st.maps_and_pathways.length == 0 then
    match generate_metabolic_pathway_data st file with
    | Except.error e => Except.error e
    | Except.ok t => Except.ok (t.maps_and_pathways, t, true)
  else Except.ok (st.maps_and_pathways, st, false)

/-- `pathways_and_maps`: build on first use (guarded by
`len(metabolic_pathways) == 0`), then return the hierarchy. -/
def pathways_and_maps (file : List String) (st : PState) :
    Except (String × PState) (AList (AList (AList String)) × PState × Bool) :=
  if st.metabolic_pathways.length == 0 then
    match generate_metabolic_pathway_data st file with
    | Except.error e => Except.error e
    | Except.ok t => Except.ok (t.metabolic_pathways, t, true)
  else Except.ok (st.metabolic_pathways, st, false)

/-- `map_pathway_data_by_map_number`: `get_maps_and_pathways()[map_number]`,
raising `KeyError` when the key is absent. -/
def map_pathway_data_by_map_number (file : List String) (st : PState)
    (map_number : String) :
    Except (String × PState) (MapRecord × PState × Bool) :=
  match get_maps_and_pathways file st with
  | Except.error e => Except.error e
  | Except.ok (data, st1, b) =>
    match alookup data map_number with
    | none => Except.error ("KeyError", st1)
    | some r => Except.ok (r, st1, b)

/-- `pathways_names`: build on first use, then `list(set(names))`. -/
def pathways_names (file : List String) (st : PState) :
    Except (String × PState) (List String × PState × Bool) :=
  if st.maps_and_pathways.length == 0 then
    match generate_metabolic_pathway_data st file with
    | Except.error e => Except.error e
    | Except.ok t => Except.ok (pySetList t.metabolic_pathways_names, t, true)
  else Except.ok (pySetList st.metabolic_pathways_names, st, false)

/-- `pathways_super_classes`: build on first use, then `list(set(...))`. -/
def pathways_super_classes (file : List String) (st : PState) :
    Except (String × PState) (List String × PState × Bool) :=
  if st.maps_and_pathways.length == 0 then
    match generate_metabolic_pathway_data st file with
    | Except.error e => Except.error e
    | Except.ok t =>
      Except.ok (pySetList t.metabolic_pathways_super_classes, t, true)
  else Except.ok (pySetList st.metabolic_pathways_super_classes, st, false)

/-- `pathways_classes`: build on first use, then `list(set(...))`. -/
def pathways_classes (file : List String) (st : PState) :
    Except (String × PState) (List String × PState × Bool) :=
  if st.maps_and_pathways.length == 0 then
    match generate_metabolic_pathway_data st file with
    | Except.error e => Except.error e
    | Except.ok t => Except.ok (pySetList t.metabolic_pathways_classes, t, true)
  else Except.ok (pySetList st.metabolic_pathways_classes, st, false)

/-- `pathways_map_numbers`: build on first use, then `list(set(...))`. -/
def pathways_map_numbers (file : List String) (st : PState) :
    Except (String × PState) (List String × PState × Bool) :=
  if st.maps_and_pathways.length == 0 then
    match generate_metabolic_pathway_data st file with
    | Except.error e => Except.error e
    | Except.ok t =>
      Except.ok (pySetList t.metabolic_pathways_map_numbers, t, true)
  else Except.ok (pySetList st.metabolic_pathways_map_numbers, st, false)

/-- `all_pathways`: build on first use (guarded by the flat index), then
return the hierarchy. -/
def all_pathways (file : List String) (st : PState) :
    Except (String × PState) (AList (AList (AList String)) × PState × Bool) :=
  if st.maps_and_pathways.length == 0 then
    match generate_metabolic_pathway_data st file with
    | Except.error e => Except.error e
    | Except.ok t => Except.ok (t.metabolic_pathways, t, true)
  else Except.ok (st.metabolic_pathways, st, false)

/-- The concrete scenario file of the spec. -/
def fileScenario : List String :=
  ["#Metabolism", "##Global and overview maps", "01100\tMetabolic pathways"]

/-- The state produced by the build pass on `fileScenario`. -/
def stScenario : PState :=
  { metabolic_pathways := [("Metabolism",
      [("Global and overview maps", [("01100", "Metabolic pathways")])])]
    maps_and_pathways := [("01100",
      { map_name := "Metabolic pathways"
        superclass := "Metabolism"
        class_ := "Global and overview maps" })]
    metabolic_pathways_names := ["Metabolic pathways"]
    metabolic_pathways_map_numbers := ["01100"]
    metabolic_pathways_super_classes := ["Metabolism"]
    metabolic_pathways_classes := ["Global and overview maps"]
    current_super_class := some "Metabolism"
    current_class := some "Global and overview maps" }

/-- The state produced by the build pass on the one-line file `#Alpha`:
its flat index is still empty, so every accessor guard re-triggers. -/
def stAlpha : PState :=
  { initState with
    metabolic_pathways := [("Alpha", [])]
    current_super_class := some ("Alpha") }

/-- A raw line on which the loop body fires none of its three branches. -/
def firesNothing (raw : String) : Bool :=
  !is_metabolic_super_class (pyRstripNL raw) &&
    (!is_metabolic_class (pyRstripNL raw) &&
      !is_metabolic_map_record (pyRstripNL raw))

/-- The head line does not re-declare a marker name that is already present
in the hierarchy: a superclass marker is fresh among the hierarchy keys, and
a class marker is fresh among the keys under the current superclass. -/
def freshMarker (st : PState) (raw : String) : Bool :=
  let line := pyRstripNL raw
  if is_metabolic_super_class line then
    decide (alookup st.metabolic_pathways (stripHashes line) = none)
  else if is_metabolic_class line then
    match st.current_super_class with
    | some csc =>
      match alookup st.metabolic_pathways csc with
      | some inner => decide (alookup inner (stripHashes line) = none)
      | none => true
    | none => true
  else true

/-- No marker line of the file, processed from `st` on, re-declares a name
already present at that point (so no hierarchy entry is ever reset). -/
def resetFree : PState → List String → Bool
  | _, [] => true
  | st, raw :: rest =>
    freshMarker st raw &&
      (match processLine st raw with
       | Except.ok t => resetFree t rest
       | Except.error _ => true)

/-! ## Basic lemmas about the dictionary model -/

theorem alookup_ainsert_self {α : Type} (d : AList α) (k : String) (v : α) :
    alookup (ainsert d k v) k = some v := by
  induction d with
  | nil => simp [ainsert, alookup]
  | cons p d ih =>
    obtain ⟨k1, v1⟩ := p
    by_cases h : k1 = k
    · simp [ainsert, alookup, h]
    · simp [ainsert, alookup, h, ih]

theorem alookup_ainsert_ne {α : Type} (d : AList α) {k k' : String} (v : α)
    (h : k' ≠ k) : alookup (ainsert d k v) k' = alookup d k' := by
  have hkk : ¬(k = k') := fun hh => h hh.symm
  induction d with
  | nil => simp [ainsert, alookup, hkk]
  | cons p d ih =>
    obtain ⟨k1, v1⟩ := p
    by_cases h1 : k1 = k
    · subst h1
      simp [ainsert, alookup, hkk]
    · by_cases h2 : k1 = k'
      · subst h2
        simp [ainsert, alookup, h1]
      · simp [ainsert, alookup, h1, h2, ih]

theorem ainsert_ne_nil {α : Type} (d : AList α) (k : String) (v : α) :
    ainsert d k v ≠ [] := by
  cases d with
  | nil => simp [ainsert]
  | cons p d =>
    obtain ⟨k1, v1⟩ := p
    by_cases h : k1 = k <;> simp [ainsert, h]

theorem akeys_cons {α : Type} (k1 : String) (v1 : α) (d : AList α) :
    akeys ((k1, v1) :: d) = k1 :: akeys d := rfl

theorem mem_akeys_ainsert {α : Type} (d : AList α) (k x : String) (v : α) :
    x ∈ akeys (ainsert d k v) ↔ x = k ∨ x ∈ akeys d := by
  induction d with
  | nil => simp [ainsert, akeys]
  | cons p d ih =>
    obtain ⟨k1, v1⟩ := p
    by_cases h : k1 = k
    · subst h
      simp only [ainsert, beq_self_eq_true, if_true, akeys_cons, List.mem_cons]
      tauto
    · simp only [ainsert, beq_iff_eq, h, if_false, akeys_cons, List.mem_cons]
      rw [ih]
      tauto

theorem mem_akeys_of_alookup {α : Type} {d : AList α} {k : String} {v : α}
    (h : alookup d k = some v) : k ∈ akeys d := by
  induction d with
  | nil => simp [alookup] at h
  | cons p d ih =>
    obtain ⟨k1, v1⟩ := p
    rw [akeys_cons, List.mem_cons]
    by_cases h1 : k1 = k
    · exact Or.inl h1.symm
    · simp only [alookup, beq_iff_eq, h1, if_false] at h
      exact Or.inr (ih h)

theorem alookup_isSome_of_mem_akeys {α : Type} {d : AList α} {k : String}
    (h : k ∈ akeys d) : ∃ v, alookup d k = some v := by
  induction d with
  | nil => simp [akeys] at h
  | cons p d ih =>
    obtain ⟨k1, v1⟩ := p
    by_cases h1 : k1 = k
    · exact ⟨v1, by simp [alookup, h1]⟩
    · rw [akeys_cons, List.mem_cons] at h
      rcases h with h | h
      · exact absurd h.symm h1
      · obtain ⟨v, hv⟩ := ih h
        exact ⟨v, by simp [alookup, h1, hv]⟩

/-! ## Character-class facts -/

theorem not_hash_of_isUpperAZ {c : Char} (h : isUpperAZ c = true) : c ≠ '#' := by
  intro hc
  subst hc
  exact absurd h (by decide)

theorem isDigit09_eq_false_of_isUpperAZ {c : Char} (h : isUpperAZ c = true) :
    isDigit09 c = false := by
  simp only [isUpperAZ, Bool.and_eq_true, decide_eq_true_eq] at h
  simp only [isDigit09, Bool.and_eq_false_iff]
  right
  simp only [decide_eq_false_iff_not]
  intro h9
  exact absurd (le_trans h.1 h9) (by decide)

theorem isPySpace_eq_false_of_isDigit09 {c : Char} (h : isDigit09 c = true) :
    isPySpace c = false := by
  have h0 : ('0' ≤ c ∧ c ≤ '9') := by
    simpa [isDigit09] using h
  have hne : ∀ x : Char, x < '0' → (c == x) = false := by
    intro x hx
    rw [beq_eq_false_iff_ne]
    rintro rfl
    exact absurd h0.1 (not_le.mpr hx)
  simp [isPySpace, hne ' ' (by decide), hne '\t' (by decide),
    hne '\n' (by decide), hne '\r' (by decide), hne '\x0b' (by decide),
    hne '\x0c' (by decide)]

theorem not_hash_of_isDigit09 {c : Char} (h : isDigit09 c = true) : c ≠ '#' := by
  intro hc
  subst hc
  exact absurd h (by decide)

/-! ## Facts about the line classifiers -/

theorem super_eq_false_of_head_not_hash {c : Char} {l : List Char}
    (h : (c == '#') = false) :
    is_metabolic_super_class (String.mk (c :: l)) = false := by
  cases l <;> simp [is_metabolic_super_class, h]

theorem class_eq_false_of_head_not_hash {c : Char} {l : List Char}
    (h : (c == '#') = false) :
    is_metabolic_class (String.mk (c :: l)) = false := by
  rcases l with _ | ⟨c1, _ | ⟨c2, r⟩⟩ <;> simp [is_metabolic_class, h]

theorem map_eq_false_of_head_not_digit {c : Char} {l : List Char}
    (h : isDigit09 c = false) :
    is_metabolic_map_record (String.mk (c :: l)) = false := by
  simp [is_metabolic_map_record, mapRecordShape, List.takeWhile, h]

theorem super_eq_false_of_class {s : String} (h : is_metabolic_class s = true) :
    is_metabolic_super_class s = false := by
  obtain ⟨l⟩ := s
  rcases l with _ | ⟨c0, _ | ⟨c1, _ | ⟨c2, r⟩⟩⟩
  · exact Bool.noConfusion h
  · exact Bool.noConfusion h
  · exact Bool.noConfusion h
  · simp only [is_metabolic_class, Bool.and_eq_true, beq_iff_eq] at h
    obtain ⟨h0, h1, h2⟩ := h
    subst h0
    subst h1
    rfl

theorem super_eq_false_of_map {s : String}
    (h : is_metabolic_map_record s = true) :
    is_metabolic_super_class s = false := by
  obtain ⟨l⟩ := s
  rcases l with _ | ⟨c0, r⟩
  · exact Bool.noConfusion h
  · cases hd : isDigit09 c0 with
    | true =>
      exact super_eq_false_of_head_not_hash
        (by rw [beq_eq_false_iff_ne]; exact not_hash_of_isDigit09 hd)
    | false =>
      rw [map_eq_false_of_head_not_digit hd] at h
      exact Bool.noConfusion h

theorem class_eq_false_of_map {s : String}
    (h : is_metabolic_map_record s = true) :
    is_metabolic_class s = false := by
  obtain ⟨l⟩ := s
  rcases l with _ | ⟨c0, r⟩
  · exact Bool.noConfusion h
  · cases hd : isDigit09 c0 with
    | true =>
      exact class_eq_false_of_head_not_hash
        (by rw [beq_eq_false_iff_ne]; exact not_hash_of_isDigit09 hd)
    | false =>
      rw [map_eq_false_of_head_not_digit hd] at h
      exact Bool.noConfusion h

/-! ## takeWhile / dropWhile facts -/

theorem takeWhile_append_all {p : Char → Bool} {ds : List Char} {w : Char}
    (rest : List Char) (h : ∀ c ∈ ds, p c = true) (hw : p w = false) :
    (ds ++ w :: rest).takeWhile p = ds := by
  induction ds with
  | nil => simp [List.takeWhile, hw]
  | cons d ds ih =>
    have hd : p d = true := h d (by simp)
    simp only [List.cons_append, List.takeWhile, hd]
    exact congrArg (List.cons d) (ih (fun c hc => h c (by simp [hc])))

theorem dropWhile_append_all {p : Char → Bool} {ds : List Char} {w : Char}
    (rest : List Char) (h : ∀ c ∈ ds, p c = true) (hw : p w = false) :
    (ds ++ w :: rest).dropWhile p = w :: rest := by
  induction ds with
  | nil => simp [List.dropWhile, hw]
  | cons d ds ih =>
    have hd : p d = true := h d (by simp)
    simp only [List.cons_append, List.dropWhile, hd]
    exact ih (fun c hc => h c (by simp [hc]))

theorem takeWhile_all {p : Char → Bool} {l : List Char}
    (h : ∀ c ∈ l, p c = true) : l.takeWhile p = l := by
  induction l with
  | nil => rfl
  | cons d ds ih =>
    simp only [List.takeWhile, h d (by simp)]
    exact congrArg (List.cons d) (ih (fun c hc => h c (by simp [hc])))

/-! ## Branch lemmas for the parse step -/

theorem superStep_pos {line : String} (st : PState)
    (h : is_metabolic_super_class line = true) :
    superStep st line = (stripHashes line,
      { st with
        metabolic_pathways :=
          ainsert st.metabolic_pathways (stripHashes line) []
        current_super_class := some (stripHashes line) }) := by
  simp [superStep, h]

theorem superStep_neg {line : String} (st : PState)
    (h : is_metabolic_super_class line = false) :
    superStep st line = (line, st) := by
  simp [superStep, h]

theorem classStep_neg {line : String} (st : PState)
    (h : is_metabolic_class line = false) :
    classStep st line = Except.ok (line, st) := by
  simp [classStep, h]

theorem classStep_pos {line : String} (st : PState) {csc : String}
    {inner : AList (AList String)}
    (h : is_metabolic_class line = true)
    (hcsc : st.current_super_class = some csc)
    (hlook : alookup st.metabolic_pathways csc = some inner) :
    classStep st line = Except.ok (stripHashes line,
      { st with
        metabolic_pathways := ainsert st.metabolic_pathways csc
          (ainsert inner (stripHashes line) [])
        current_class := some (stripHashes line) }) := by
  simp [classStep, h, hcsc, hlook]

theorem mapStep_neg {line : String} (st : PState)
    (h : is_metabolic_map_record line = false) :
    mapStep st line = Except.ok st := by
  simp [mapStep, h]

/-- Shape of a line accepted by the superclass check. -/
theorem super_shape {s : String} (h : is_metabolic_super_class s = true) :
    ∃ c rest, s.data = '#' :: c :: rest ∧ isUpperAZ c = true := by
  obtain ⟨l⟩ := s
  rcases l with _ | ⟨c0, _ | ⟨c1, r⟩⟩
  · exact Bool.noConfusion h
  · exact Bool.noConfusion h
  · have h' : (c0 == '#' && isUpperAZ c1) = true := h
    rw [Bool.and_eq_true, beq_iff_eq] at h'
    exact ⟨c1, r, by rw [h'.1], h'.2⟩

/-- Shape of a line accepted by the class check. -/
theorem class_shape {s : String} (h : is_metabolic_class s = true) :
    ∃ c rest, s.data = '#' :: '#' :: c :: rest ∧ isUpperAZ c = true := by
  obtain ⟨l⟩ := s
  rcases l with _ | ⟨c0, _ | ⟨c1, _ | ⟨c2, r⟩⟩⟩
  · exact Bool.noConfusion h
  · exact Bool.noConfusion h
  · exact Bool.noConfusion h
  · have h' : (c0 == '#' && (c1 == '#' && isUpperAZ c2)) = true := h
    rw [Bool.and_eq_true, Bool.and_eq_true, beq_iff_eq, beq_iff_eq] at h'
    exact ⟨c2, r, by rw [h'.1, h'.2.1], h'.2.2⟩

/-- Stripping the `#` characters from a superclass line leaves a string that
starts with an uppercase letter. -/
theorem stripHashes_super {s : String}
    (h : is_metabolic_super_class s = true) :
    ∃ c l, (stripHashes s).data = c :: l ∧ isUpperAZ c = true := by
  obtain ⟨c, rest, hdata, hu⟩ := super_shape h
  refine ⟨c, rest.filter (fun x => x != '#'), ?_, hu⟩
  show s.data.filter (fun x => x != '#') = c :: rest.filter (fun x => x != '#')
  rw [hdata]
  have h2 : (c != '#') = true := by
    rw [bne_iff_ne]
    exact not_hash_of_isUpperAZ hu
  simp [List.filter_cons, h2]

/-- Stripping the `#` characters from a class line leaves a string that
starts with an uppercase letter. -/
theorem stripHashes_class {s : String} (h : is_metabolic_class s = true) :
    ∃ c l, (stripHashes s).data = c :: l ∧ isUpperAZ c = true := by
  obtain ⟨c, rest, hdata, hu⟩ := class_shape h
  refine ⟨c, rest.filter (fun x => x != '#'), ?_, hu⟩
  show s.data.filter (fun x => x != '#') = c :: rest.filter (fun x => x != '#')
  rw [hdata]
  have h2 : (c != '#') = true := by
    rw [bne_iff_ne]
    exact not_hash_of_isUpperAZ hu
  simp [List.filter_cons, h2]

/-- A string whose first character is an uppercase letter fires none of the
three classifiers. -/
theorem no_marker_of_upper_head {t : String} {c : Char} {l : List Char}
    (hdata : t.data = c :: l) (hu : isUpperAZ c = true) :
    is_metabolic_super_class t = false ∧ is_metabolic_class t = false ∧
      is_metabolic_map_record t = false := by
  obtain ⟨ld⟩ := t
  have hld : ld = c :: l := hdata
  subst hld
  have hne : (c == '#') = false := by
    rw [beq_eq_false_iff_ne]
    exact not_hash_of_isUpperAZ hu
  exact ⟨super_eq_false_of_head_not_hash hne,
    class_eq_false_of_head_not_hash hne,
    map_eq_false_of_head_not_digit (isDigit09_eq_false_of_isUpperAZ hu)⟩

/-- Evaluation of the loop body on a superclass-marker line. -/
theorem processLine_super {raw : String} (st : PState)
    (h : is_metabolic_super_class (pyRstripNL raw) = true) :
    processLine st raw = Except.ok
      { st with
        metabolic_pathways :=
          ainsert st.metabolic_pathways (stripHashes (pyRstripNL raw)) []
        current_super_class := some (stripHashes (pyRstripNL raw)) } := by
  obtain ⟨c, l, hdata, hu⟩ := stripHashes_super h
  obtain ⟨-, hcl, hmp⟩ := no_marker_of_upper_head hdata hu
  simp only [processLine, superStep_pos st h]
  rw [classStep_neg { st with
    metabolic_pathways :=
      ainsert st.metabolic_pathways (stripHashes (pyRstripNL raw)) []
    current_super_class := some (stripHashes (pyRstripNL raw)) } hcl]
  exact mapStep_neg _ hmp

/-- Evaluation of the loop body on a class-marker line when the current
superclass is bound and present in the hierarchy. -/
theorem processLine_class {raw : String} (st : PState) {csc : String}
    {inner : AList (AList String)}
    (h : is_metabolic_class (pyRstripNL raw) = true)
    (hcsc : st.current_super_class = some csc)
    (hlook : alookup st.metabolic_pathways csc = some inner) :
    processLine st raw = Except.ok
      { st with
        metabolic_pathways := ainsert st.metabolic_pathways csc
          (ainsert inner (stripHashes (pyRstripNL raw)) [])
        current_class := some (stripHashes (pyRstripNL raw)) } := by
  obtain ⟨c, l, hdata, hu⟩ := stripHashes_class h
  obtain ⟨-, -, hmp⟩ := no_marker_of_upper_head hdata hu
  simp only [processLine, superStep_neg st (super_eq_false_of_class h)]
  rw [classStep_pos st h hcsc hlook]
  exact mapStep_neg _ hmp

/-- Evaluation of the loop body on a line that fires no classifier. -/
theorem processLine_none {raw : String} (st : PState)
    (hsc : is_metabolic_super_class (pyRstripNL raw) = false)
    (hcl : is_metabolic_class (pyRstripNL raw) = false)
    (hmp : is_metabolic_map_record (pyRstripNL raw) = false) :
    processLine st raw = Except.ok st := by
  simp only [processLine, superStep_neg st hsc]
  rw [classStep_neg st hcl]
  exact mapStep_neg _ hmp

/-! ## Claim C1 -/

/-- C1: for every input line, `is_metabolic_super_class` returns true iff the
line starts with exactly one `#` followed immediately by an uppercase ASCII
letter (an uppercase letter is never `#`, so the existential below expresses
exactly that), `is_metabolic_class` returns true iff the line starts with
`##` followed by an uppercase ASCII letter, and on every class line the
superclass check returns false, so the two classifications are mutually
exclusive. -/
theorem C1_line_classification (s : String) :
    (is_metabolic_super_class s = true ↔
      ∃ c rest, s.data = '#' :: c :: rest ∧ isUpperAZ c = true) ∧
    (is_metabolic_class s = true ↔
      ∃ c rest, s.data = '#' :: '#' :: c :: rest ∧ isUpperAZ c = true) ∧
    (is_metabolic_class s = true → is_metabolic_super_class s = false) := by
  refine ⟨?_, ?_, fun h => super_eq_false_of_class h⟩
  · obtain ⟨l⟩ := s
    rcases l with _ | ⟨c0, _ | ⟨c1, r⟩⟩
    · constructor
      · intro h
        exact Bool.noConfusion h
      · rintro ⟨c, rest, h, -⟩
        exact List.noConfusion h
    · constructor
      · intro h
        exact Bool.noConfusion h
      · rintro ⟨c, rest, h, -⟩
        have h' : [c0] = '#' :: c :: rest := h
        injection h' with h1 h2
        exact List.noConfusion h2
    · constructor
      · intro h
        have h' : (c0 == '#' && isUpperAZ c1) = true := h
        rw [Bool.and_eq_true, beq_iff_eq] at h'
        exact ⟨c1, r, by rw [h'.1], h'.2⟩
      · rintro ⟨c, rest, h, hu⟩
        have h' : c0 :: c1 :: r = '#' :: c :: rest := h
        injection h' with h1 h2
        injection h2 with h2 h3
        subst h1
        subst h2
        show ('#' == '#' && isUpperAZ c1) = true
        simp [hu]
  · obtain ⟨l⟩ := s
    rcases l with _ | ⟨c0, _ | ⟨c1, _ | ⟨c2, r⟩⟩⟩
    · constructor
      · intro h
        exact Bool.noConfusion h
      · rintro ⟨c, rest, h, -⟩
        exact List.noConfusion h
    · constructor
      · intro h
        exact Bool.noConfusion h
      · rintro ⟨c, rest, h, -⟩
        have h' : [c0] = '#' :: '#' :: c :: rest := h
        injection h' with h1 h2
        exact List.noConfusion h2
    · constructor
      · intro h
        exact Bool.noConfusion h
      · rintro ⟨c, rest, h, -⟩
        have h' : [c0, c1] = '#' :: '#' :: c :: rest := h
        injection h' with h1 h2
        injection h2 with h2 h3
        exact List.noConfusion h3
    · constructor
      · intro h
        have h' : (c0 == '#' && (c1 == '#' && isUpperAZ c2)) = true := h
        rw [Bool.and_eq_true, Bool.and_eq_true, beq_iff_eq, beq_iff_eq] at h'
        exact ⟨c2, r, by rw [h'.1, h'.2.1], h'.2.2⟩
      · rintro ⟨c, rest, h, hu⟩
        have h' : c0 :: c1 :: c2 :: r = '#' :: '#' :: c :: rest := h
        injection h' with h1 h2
        injection h2 with h2 h3
        injection h3 with h3 h4
        subst h1
        subst h2
        subst h3
        show ('#' == '#' && ('#' == '#' && isUpperAZ c2)) = true
        simp [hu]

/-- Witness for C1: on the class line `##Immune system` the theorem yields
that the superclass check is false. -/
theorem C1_line_classification_witness :
    is_metabolic_super_class ("##Immune system") = false :=
  (C1_line_classification ("##Immune system")).2.2 (by decide)

/-! ## Claim C2 -/

/-- C2 counterexample: the claim says a later marker line with an
already-seen name leaves the recorded hierarchy contents unchanged.  It does
not: after `#Alpha`, `##Beta`, `01 x` the hierarchy records
`Alpha -> Beta -> [(01, x)]`, but appending a second `##Beta` line resets
`Alpha -> Beta` to the empty dict, because the code assigns
`metabolic_pathways[current_super_class][line] = {}` unconditionally instead
of only when the key is absent. -/
theorem C2_duplicate_marker_counterexample :
    (parsePathwayFile ["#Alpha", "##Beta", "01 x"]).map
        (fun st => (alookup st.metabolic_pathways ("Alpha")).map
          (fun i => alookup i ("Beta")))
      = some (some (some [("01", "x")])) ∧
    (parsePathwayFile ["#Alpha", "##Beta", "01 x", "##Beta"]).map
        (fun st => (alookup st.metabolic_pathways ("Alpha")).map
          (fun i => alookup i ("Beta")))
      = some (some (some [])) := by
  constructor
  · decide
  · decide

/-- C2 amended: processing a superclass line assigns a fresh empty entry for
the stripped name unconditionally (overwriting any contents already recorded
under that name), and processing a class line assigns a fresh empty entry
for the stripped name under the current superclass unconditionally; so a
repeated marker name resets the hierarchy contents previously recorded under
it to empty instead of leaving them unchanged. -/
theorem C2_marker_overwrite (st : PState) (raw : String) :
    (is_metabolic_super_class (pyRstripNL raw) = true →
      ∃ st2, processLine st raw = Except.ok st2 ∧
        st2.metabolic_pathways
          = ainsert st.metabolic_pathways (stripHashes (pyRstripNL raw)) [] ∧
        alookup st2.metabolic_pathways (stripHashes (pyRstripNL raw))
          = some []) ∧
    (is_metabolic_class (pyRstripNL raw) = true →
      ∀ csc inner, st.current_super_class = some csc →
        alookup st.metabolic_pathways csc = some inner →
        ∃ st2, processLine st raw = Except.ok st2 ∧
          st2.metabolic_pathways = ainsert st.metabolic_pathways csc
            (ainsert inner (stripHashes (pyRstripNL raw)) []) ∧
          alookup st2.metabolic_pathways csc
            = some (ainsert inner (stripHashes (pyRstripNL raw)) [])) := by
  constructor
  · intro h
    exact ⟨_, processLine_super st h, rfl,
      alookup_ainsert_self st.metabolic_pathways (stripHashes (pyRstripNL raw)) []⟩
  · intro h csc inner hcsc hlook
    exact ⟨_, processLine_class st h hcsc hlook, rfl,
      alookup_ainsert_self st.metabolic_pathways csc
        (ainsert inner (stripHashes (pyRstripNL raw)) [])⟩

/-- Witness for C2 amended: a concrete superclass line written into the
fresh state. -/
theorem C2_marker_overwrite_witness :
    ∃ st2, processLine initState ("#Alpha") = Except.ok st2 ∧
      st2.metabolic_pathways
        = ainsert initState.metabolic_pathways
            (stripHashes (pyRstripNL ("#Alpha"))) [] ∧
      alookup st2.metabolic_pathways (stripHashes (pyRstripNL ("#Alpha")))
        = some [] :=
  (C2_marker_overwrite initState ("#Alpha")).1 (by decide)

/-! ## Claim C3 -/

/-- C3: on every map-record line `<digits><ws><rest>` (a nonempty digit run,
then a whitespace character, then anything), `metabolic_pathway_map_number`
returns exactly the leading digit run as a string, preserving all digits
including leading zeros. -/
theorem isDigit09_eq_false_of_isPySpace {w : Char} (hw : isPySpace w = true) :
    isDigit09 w = false := by
  cases hq : isDigit09 w with
  | false => rfl
  | true =>
    rw [isPySpace_eq_false_of_isDigit09 hq] at hw
    exact Bool.noConfusion hw

theorem mapRecordShape_append {ds : List Char} {w : Char} {rest : List Char}
    (hds : ds ≠ []) (hdig : ∀ c ∈ ds, isDigit09 c = true)
    (hw : isPySpace w = true) :
    mapRecordShape (ds ++ w :: rest) = true := by
  have hwd : isDigit09 w = false := isDigit09_eq_false_of_isPySpace hw
  have hne : ds.isEmpty = false := by
    cases ds with
    | nil => exact absurd rfl hds
    | cons a l => rfl
  unfold mapRecordShape
  rw [takeWhile_append_all rest hdig hwd, dropWhile_append_all rest hdig hwd,
    hne]
  simp [hw]

theorem C3_map_number_extraction (ds : List Char) (w : Char) (rest : List Char)
    (hds : ds ≠ []) (hdig : ∀ c ∈ ds, isDigit09 c = true)
    (hw : isPySpace w = true) :
    metabolic_pathway_map_number (String.mk (ds ++ w :: rest))
      = some (String.mk ds) := by
  have hwd : isDigit09 w = false := isDigit09_eq_false_of_isPySpace hw
  have ht : (ds ++ w :: rest).takeWhile isDigit09 = ds :=
    takeWhile_append_all rest hdig hwd
  show (if mapRecordShape (ds ++ w :: rest) then
      some (String.mk ((ds ++ w :: rest).takeWhile isDigit09)) else none)
    = some (String.mk ds)
  rw [mapRecordShape_append hds hdig hw, ht]
  rfl

/-- Witness for C3: the digit run `07231` (with its leading zero) is
extracted from a concrete map line. -/
theorem C3_map_number_extraction_witness :
    metabolic_pathway_map_number
        (String.mk (['0', '7', '2', '3', '1'] ++ ' ' :: ("Sodium").data))
      = some (String.mk ['0', '7', '2', '3', '1']) :=
  C3_map_number_extraction ['0', '7', '2', '3', '1'] ' ' (("Sodium").data)
    (by decide) (by decide) (by decide)

/-! ## Claim C4 -/

/-- C4 counterexample: the claim says the map name is the remainder after
the digit run with ALL leading whitespace stripped, whatever mixture of
spaces and tabs it is.  On `07231⇥⇥Sodium` (two tabs) the code consumes one
tab via `\s`, and `re.sub('^\ {1,}', ...)` then strips spaces only, so the
second tab is kept: the result is `⇥Sodium`, not `Sodium`. -/
theorem C4_map_name_counterexample :
    metabolic_pathway_map_name ("07231\t\tSodium") = some ("\tSodium") ∧
    metabolic_pathway_map_name ("07231\t\tSodium") ≠ some ("Sodium") := by
  constructor
  · decide
  · decide

/-- C4 amended: on a map-record line `<digits><w><rest>` with `<w>` a single
whitespace character and `<rest>` newline-free, the extraction returns
`<rest>` with its leading run of space characters (`' '` only) stripped;
any tab (or other non-space whitespace) at the start of `<rest>` is kept
verbatim, and nothing else is changed. -/
theorem C4_map_name_extraction (ds : List Char) (w : Char) (rest : List Char)
    (hds : ds ≠ []) (hdig : ∀ c ∈ ds, isDigit09 c = true)
    (hw : isPySpace w = true) (hnl : ∀ c ∈ rest, c ≠ '\n') :
    metabolic_pathway_map_name (String.mk (ds ++ w :: rest))
      = some (String.mk (rest.dropWhile (fun c => c == ' '))) := by
  have hwd : isDigit09 w = false := isDigit09_eq_false_of_isPySpace hw
  have hd : (ds ++ w :: rest).dropWhile isDigit09 = w :: rest :=
    dropWhile_append_all rest hdig hwd
  have htw : rest.takeWhile (fun c => c != '\n') = rest :=
    takeWhile_all (fun c hc => by
      rw [bne_iff_ne]
      exact hnl c hc)
  show (if mapRecordShape (ds ++ w :: rest) then
      some (String.mk (((((ds ++ w :: rest).dropWhile isDigit09).tail).takeWhile
        (fun c => c != '\n')).dropWhile (fun c => c == ' ')))
    else none) = some (String.mk (rest.dropWhile (fun c => c == ' ')))
  rw [mapRecordShape_append hds hdig hw, hd]
  show some (String.mk ((rest.takeWhile (fun c => c != '\n')).dropWhile
      (fun c => c == ' ')))
    = some (String.mk (rest.dropWhile (fun c => c == ' ')))
  rw [htw]

/-- Witness for C4 amended: on the space-separated scenario line of the spec
the amended statement yields exactly the expected name. -/
theorem C4_map_name_extraction_witness :
    metabolic_pathway_map_name ("07231   Sodium channel blocking drugs")
      = some ("Sodium channel blocking drugs") := by
  have h := C4_map_name_extraction (['0', '7', '2', '3', '1']) ' '
    (("  Sodium channel blocking drugs").data) (by decide) (by decide)
    (by decide) (by decide)
  rw [show String.mk (['0', '7', '2', '3', '1'] ++ ' ' ::
      ("  Sodium channel blocking drugs").data)
    = ("07231   Sodium channel blocking drugs") by decide] at h
  rw [h]
  decide

/-! ## Claim C9 -/

theorem classStep_err_none {line : String} (st : PState)
    (h : is_metabolic_class line = true)
    (hnone : st.current_super_class = none) :
    classStep st line
      = Except.error ("NameError: current_super_class", st) := by
  simp [classStep, h, hnone]

theorem map_number_of_map {line : String}
    (h : is_metabolic_map_record line = true) :
    metabolic_pathway_map_number line
      = some (String.mk (line.data.takeWhile isDigit09)) := by
  have h' : mapRecordShape line.data = true := h
  simp [metabolic_pathway_map_number, h']

theorem map_name_of_map {line : String}
    (h : is_metabolic_map_record line = true) :
    metabolic_pathway_map_name line
      = some (String.mk ((((line.data.dropWhile isDigit09).tail).takeWhile
          (fun c => c != '\n')).dropWhile (fun c => c == ' '))) := by
  have h' : mapRecordShape line.data = true := h
  simp [metabolic_pathway_map_name, h']

theorem mapStep_err_nosc {line : String} (st : PState)
    (h : is_metabolic_map_record line = true)
    (hnone : st.current_super_class = none) :
    mapStep st line = Except.error ("NameError: current_super_class", st) := by
  simp [mapStep, h, map_number_of_map h, map_name_of_map h, hnone]

/-- On a line that fires no branch, the loop body only strips the line and
leaves the state untouched. -/
theorem processLine_of_firesNothing {raw : String} (st : PState)
    (h : firesNothing raw = true) : processLine st raw = Except.ok st := by
  rw [firesNothing, Bool.and_eq_true, Bool.and_eq_true,
    Bool.not_eq_true', Bool.not_eq_true', Bool.not_eq_true'] at h
  exact processLine_none st h.1 h.2.1 h.2.2

/-- Lines firing no branch are skipped by the build pass. -/
theorem generate_prefix_noop {pre : List String} (st : PState)
    (rest : List String) (hpre : ∀ l ∈ pre, firesNothing l = true) :
    generate_metabolic_pathway_data st (pre ++ rest)
      = generate_metabolic_pathway_data st rest := by
  induction pre with
  | nil => rfl
  | cons a pre ih =>
    show (match processLine st a with
      | Except.error e => Except.error e
      | Except.ok t => generate_metabolic_pathway_data t (pre ++ rest))
      = generate_metabolic_pathway_data st rest
    rw [processLine_of_firesNothing st (hpre a (by simp))]
    exact ih (fun l hl => hpre l (by simp [hl]))

/-- When the current superclass is unbound, a class or map-record line makes
the loop body raise `NameError` before mutating anything. -/
theorem processLine_err_nosc {raw : String} (st : PState)
    (hnone : st.current_super_class = none)
    (hraw : is_metabolic_class (pyRstripNL raw) = true ∨
      is_metabolic_map_record (pyRstripNL raw) = true) :
    processLine st raw
      = Except.error ("NameError: current_super_class", st) := by
  rcases hraw with h | h
  · simp only [processLine, superStep_neg st (super_eq_false_of_class h)]
    rw [classStep_err_none st h hnone]
  · simp only [processLine, superStep_neg st (super_eq_false_of_map h)]
    rw [classStep_neg st (class_eq_false_of_map h)]
    exact mapStep_err_nosc st h hnone

theorem classStep_err_key {line : String} (st : PState) {csc : String}
    (h : is_metabolic_class line = true)
    (hcsc : st.current_super_class = some csc)
    (hlook : alookup st.metabolic_pathways csc = none) :
    classStep st line = Except.error ("KeyError", st) := by
  simp [classStep, h, hcsc, hlook]

theorem processLine_class_keyerr {raw : String} (st : PState) {csc : String}
    (h : is_metabolic_class (pyRstripNL raw) = true)
    (hcsc : st.current_super_class = some csc)
    (hlook : alookup st.metabolic_pathways csc = none) :
    processLine st raw = Except.error ("KeyError", st) := by
  simp only [processLine, superStep_neg st (super_eq_false_of_class h)]
  rw [classStep_err_key st h hcsc hlook]

/-- Complete case analysis of a successful loop-body step: either the line
is a superclass marker, a class marker, a map record (with all the context
that a successful step requires), or it fires nothing and the state is
untouched. -/
theorem processLine_cases {st t : PState} {raw : String}
    (h : processLine st raw = Except.ok t) :
    (is_metabolic_super_class (pyRstripNL raw) = true ∧
      t = { st with
        metabolic_pathways := ainsert st.metabolic_pathways
          (stripHashes (pyRstripNL raw)) []
        current_super_class := some (stripHashes (pyRstripNL raw)) }) ∨
    (is_metabolic_class (pyRstripNL raw) = true ∧
      ∃ csc inner, st.current_super_class = some csc ∧
        alookup st.metabolic_pathways csc = some inner ∧
        t = { st with
          metabolic_pathways := ainsert st.metabolic_pathways csc
            (ainsert inner (stripHashes (pyRstripNL raw)) [])
          current_class := some (stripHashes (pyRstripNL raw)) }) ∨
    (is_metabolic_map_record (pyRstripNL raw) = true ∧
      ∃ csc ccl inner maps num nm,
        st.current_super_class = some csc ∧
        alookup st.metabolic_pathways csc = some inner ∧
        st.current_class = some ccl ∧
        alookup inner ccl = some maps ∧
        metabolic_pathway_map_number (pyRstripNL raw) = some num ∧
        metabolic_pathway_map_name (pyRstripNL raw) = some nm ∧
        t = { st with
          metabolic_pathways := ainsert st.metabolic_pathways csc
            (ainsert inner ccl (ainsert maps num nm))
          maps_and_pathways := ainsert st.maps_and_pathways num
            { map_name := nm, superclass := csc, class_ := ccl }
          metabolic_pathways_names := st.metabolic_pathways_names ++ [nm]
          metabolic_pathways_map_numbers :=
            st.metabolic_pathways_map_numbers ++ [num]
          metabolic_pathways_super_classes :=
            st.metabolic_pathways_super_classes ++ [csc]
          metabolic_pathways_classes :=
            st.metabolic_pathways_classes ++ [ccl] }) ∨
    (is_metabolic_super_class (pyRstripNL raw) = false ∧
      is_metabolic_class (pyRstripNL raw) = false ∧
      is_metabolic_map_record (pyRstripNL raw) = false ∧ t = st) := by
  by_cases hsc : is_metabolic_super_class (pyRstripNL raw) = true
  · left
    rw [processLine_super st hsc] at h
    injection h with h'
    exact ⟨hsc, h'.symm⟩
  · rw [Bool.not_eq_true] at hsc
    by_cases hcl : is_metabolic_class (pyRstripNL raw) = true
    · right
      left
      refine ⟨hcl, ?_⟩
      have hne1 : st.current_super_class ≠ none := by
        intro hq
        rw [processLine_err_nosc st hq (Or.inl hcl)] at h
        exact Except.noConfusion h
      obtain ⟨csc, hcsc⟩ := Option.ne_none_iff_exists'.mp hne1
      have hne2 : alookup st.metabolic_pathways csc ≠ none := by
        intro hq
        rw [processLine_class_keyerr st hcl hcsc hq] at h
        exact Except.noConfusion h
      obtain ⟨inner, hlook⟩ := Option.ne_none_iff_exists'.mp hne2
      rw [processLine_class st hcl hcsc hlook] at h
      injection h with h'
      exact ⟨csc, inner, hcsc, hlook, h'.symm⟩
    · rw [Bool.not_eq_true] at hcl
      by_cases hmp : is_metabolic_map_record (pyRstripNL raw) = true
      · right
        right
        left
        refine ⟨hmp, ?_⟩
        simp only [processLine, superStep_neg st hsc,
          classStep_neg st hcl] at h
        simp only [mapStep, hmp, if_true, map_number_of_map hmp,
          map_name_of_map hmp] at h
        have hne1 : st.current_super_class ≠ none := by
          intro hq
          simp only [hq] at h
          exact Except.noConfusion h
        obtain ⟨csc, hcsc⟩ := Option.ne_none_iff_exists'.mp hne1
        simp only [hcsc] at h
        have hne2 : alookup st.metabolic_pathways csc ≠ none := by
          intro hq
          simp only [hq] at h
          exact Except.noConfusion h
        obtain ⟨inner, hlook⟩ := Option.ne_none_iff_exists'.mp hne2
        simp only [hlook] at h
        have hne3 : st.current_class ≠ none := by
          intro hq
          simp only [hq] at h
          exact Except.noConfusion h
        obtain ⟨ccl, hccl⟩ := Option.ne_none_iff_exists'.mp hne3
        simp only [hccl] at h
        have hne4 : alookup inner ccl ≠ none := by
          intro hq
          simp only [hq] at h
          exact Except.noConfusion h
        obtain ⟨maps, hlook2⟩ := Option.ne_none_iff_exists'.mp hne4
        simp only [hlook2] at h
        injection h with h'
        refine ⟨csc, ccl, inner, maps, _, _, hcsc, hlook, hccl, hlook2,
          map_number_of_map hmp, map_name_of_map hmp, ?_⟩
        rw [← h', hcsc, hccl]
      · rw [Bool.not_eq_true] at hmp
        right
        right
        right
        rw [processLine_none st hsc hcl hmp] at h
        injection h with h'
        exact ⟨hsc, hcl, hmp, h'.symm⟩

/-- C9: if the input file contains a class-marker or map-record line before
any superclass-marker line (all earlier lines fire no branch at all), the
build pass run on a fresh instance fails with the unbound-variable error for
`current_super_class`, and the state carried by the error is still the
fresh state: no partial entry was produced for that line. -/
theorem C9_missing_context (pre : List String) (raw : String)
    (post : List String) (hpre : ∀ l ∈ pre, firesNothing l = true)
    (hraw : is_metabolic_class (pyRstripNL raw) = true ∨
      is_metabolic_map_record (pyRstripNL raw) = true) :
    runErr (generate_metabolic_pathway_data initState (pre ++ raw :: post))
      = some ("NameError: current_super_class", initState) := by
  rw [generate_prefix_noop initState (raw :: post) hpre]
  show runErr (match processLine initState raw with
    | Except.error e => Except.error e
    | Except.ok t => generate_metabolic_pathway_data t post)
    = some ("NameError: current_super_class", initState)
  rw [processLine_err_nosc initState rfl hraw]
  rfl

/-- Witness for C9: a file whose first line is a map record. -/
theorem C9_missing_context_witness :
    runErr (generate_metabolic_pathway_data initState (([] : List String)
        ++ ("01 x") :: []))
      = some ("NameError: current_super_class", initState) :=
  C9_missing_context [] ("01 x") []
    (fun l hl => absurd hl (List.not_mem_nil l)) (Or.inr (by decide))

/-! ## Folding invariants through the build pass -/

theorem generate_cons (st : PState) (raw : String) (rest : List String) :
    generate_metabolic_pathway_data st (raw :: rest)
      = match processLine st raw with
        | Except.error e => Except.error e
        | Except.ok t => generate_metabolic_pathway_data t rest := rfl

/-- Any property preserved by each successful loop-body step is preserved by
a successful build pass. -/
theorem generate_preserves (P : PState → Prop)
    (hstep : ∀ st t raw, processLine st raw = Except.ok t → P st → P t) :
    ∀ (file : List String) (st st1 : PState),
      generate_metabolic_pathway_data st file = Except.ok st1 →
      P st → P st1 := by
  intro file
  induction file with
  | nil =>
    intro st st1 h hP
    injection h with h'
    rw [← h']
    exact hP
  | cons raw rest ih =>
    intro st st1 h hP
    rw [generate_cons] at h
    cases hp : processLine st raw with
    | error e =>
      rw [hp] at h
      exact Except.noConfusion h
    | ok t =>
      rw [hp] at h
      exact ih t st1 h (hstep st t raw hp hP)

theorem runOk_eq_some {ε α : Type} {x : Except ε α} {a : α}
    (h : runOk x = some a) : x = Except.ok a := by
  cases x with
  | ok y =>
    injection h with h'
    rw [h']
  | error e => exact Option.noConfusion h

/-! ## Claim C10 -/

/-- Each step keeps the map-number list and the flat-index key set in
agreement. -/
theorem numsKeys_step (st t : PState) (raw : String)
    (hp : processLine st raw = Except.ok t)
    (hP : ∀ x, x ∈ st.metabolic_pathways_map_numbers ↔
      x ∈ akeys st.maps_and_pathways) :
    ∀ x, x ∈ t.metabolic_pathways_map_numbers ↔
      x ∈ akeys t.maps_and_pathways := by
  rcases processLine_cases hp with ⟨-, rfl⟩ | ⟨-, csc, inner, -, -, rfl⟩ |
    ⟨-, csc, ccl, inner, maps, num, nm, -, -, -, -, -, -, rfl⟩ | ⟨-, -, -, rfl⟩
  · exact hP
  · exact hP
  · intro x
    show x ∈ st.metabolic_pathways_map_numbers ++ [num] ↔
      x ∈ akeys (ainsert st.maps_and_pathways num
        { map_name := nm, superclass := csc, class_ := ccl })
    rw [List.mem_append, List.mem_singleton, mem_akeys_ainsert, hP x]
    tauto
  · exact hP

/-- C10: reading a fresh instance through the map-numbers accessor and the
flat-index accessor yields the same set of map numbers: every element of the
returned list is a key of the returned index and vice versa. -/
theorem C10_map_numbers_are_index_keys (file : List String)
    (l : List String) (st1 : PState) (b : Bool) (d : AList MapRecord)
    (st2 : PState) (b2 : Bool)
    (h1 : runOk (pathways_map_numbers file initState) = some (l, st1, b))
    (h2 : runOk (get_maps_and_pathways file initState) = some (d, st2, b2)) :
    ∀ x, x ∈ l ↔ x ∈ akeys d := by
  rw [show pathways_map_numbers file initState
    = (match generate_metabolic_pathway_data initState file with
       | Except.error e => Except.error e
       | Except.ok t =>
          Except.ok (pySetList t.metabolic_pathways_map_numbers, t, true))
    from rfl] at h1
  rw [show get_maps_and_pathways file initState
    = (match generate_metabolic_pathway_data initState file with
       | Except.error e => Except.error e
       | Except.ok t => Except.ok (t.maps_and_pathways, t, true))
    from rfl] at h2
  cases hgen : generate_metabolic_pathway_data initState file with
  | error e =>
    rw [hgen] at h1
    exact Option.noConfusion h1
  | ok t =>
    rw [hgen] at h1
    rw [hgen] at h2
    have h1' : some (pySetList t.metabolic_pathways_map_numbers, t, true)
        = some (l, st1, b) := h1
    have h2' : some (t.maps_and_pathways, t, true) = some (d, st2, b2) := h2
    simp only [Option.some.injEq, Prod.mk.injEq] at h1' h2'
    have hinv := generate_preserves
      (fun st => ∀ x, x ∈ st.metabolic_pathways_map_numbers ↔
        x ∈ akeys st.maps_and_pathways)
      numsKeys_step file initState t hgen (by intro x; simp [initState, akeys])
    intro x
    rw [← h1'.1, ← h2'.1]
    rw [pySetList, List.mem_dedup]
    exact hinv x

/-- Witness for C10: on the scenario file, the single map number `01100` is
in the accessor list and is a key of the flat index. -/
theorem C10_map_numbers_are_index_keys_witness :
    ("01100" ∈ (["01100"] : List String)) ∧
      ("01100" ∈ akeys stScenario.maps_and_pathways) := by
  have h := C10_map_numbers_are_index_keys fileScenario ["01100"] stScenario
    true stScenario.maps_and_pathways stScenario true (by decide) (by decide)
  have h' := (h ("01100")).mp (by decide)
  exact ⟨by decide, h'⟩

/-! ## Claim C7 -/

/-- C7: each of the four distinct-value accessors (names, superclasses,
classes, map numbers) returns a list with no duplicate entries, on every
input file and from every instance state, however often a value recurs among
the map records. -/
theorem C7_deduplicated_lists (file : List String) (st : PState) :
    (∀ l st1 b, runOk (pathways_names file st) = some (l, st1, b) →
      l.Nodup) ∧
    (∀ l st1 b, runOk (pathways_super_classes file st) = some (l, st1, b) →
      l.Nodup) ∧
    (∀ l st1 b, runOk (pathways_classes file st) = some (l, st1, b) →
      l.Nodup) ∧
    (∀ l st1 b, runOk (pathways_map_numbers file st) = some (l, st1, b) →
      l.Nodup) := by
  refine ⟨?_, ?_, ?_, ?_⟩
  · intro l st1 b h
    unfold pathways_names at h
    split at h
    · cases hgen : generate_metabolic_pathway_data st file with
      | error e =>
        rw [hgen] at h
        exact Option.noConfusion h
      | ok t =>
        rw [hgen] at h
        have h' : some (pySetList t.metabolic_pathways_names, t, true)
            = some (l, st1, b) := h
        simp only [Option.some.injEq, Prod.mk.injEq] at h'
        rw [← h'.1]
        exact List.nodup_dedup _
    · have h' : some (pySetList st.metabolic_pathways_names, st, false)
          = some (l, st1, b) := h
      simp only [Option.some.injEq, Prod.mk.injEq] at h'
      rw [← h'.1]
      exact List.nodup_dedup _
  · intro l st1 b h
    unfold pathways_super_classes at h
    split at h
    · cases hgen : generate_metabolic_pathway_data st file with
      | error e =>
        rw [hgen] at h
        exact Option.noConfusion h
      | ok t =>
        rw [hgen] at h
        have h' : some (pySetList t.metabolic_pathways_super_classes, t, true)
            = some (l, st1, b) := h
        simp only [Option.some.injEq, Prod.mk.injEq] at h'
        rw [← h'.1]
        exact List.nodup_dedup _
    · have h' : some (pySetList st.metabolic_pathways_super_classes, st, false)
          = some (l, st1, b) := h
      simp only [Option.some.injEq, Prod.mk.injEq] at h'
      rw [← h'.1]
      exact List.nodup_dedup _
  · intro l st1 b h
    unfold pathways_classes at h
    split at h
    · cases hgen : generate_metabolic_pathway_data st file with
      | error e =>
        rw [hgen] at h
        exact Option.noConfusion h
      | ok t =>
        rw [hgen] at h
        have h' : some (pySetList t.metabolic_pathways_classes, t, true)
            = some (l, st1, b) := h
        simp only [Option.some.injEq, Prod.mk.injEq] at h'
        rw [← h'.1]
        exact List.nodup_dedup _
    · have h' : some (pySetList st.metabolic_pathways_classes, st, false)
          = some (l, st1, b) := h
      simp only [Option.some.injEq, Prod.mk.injEq] at h'
      rw [← h'.1]
      exact List.nodup_dedup _
  · intro l st1 b h
    unfold pathways_map_numbers at h
    split at h
    · cases hgen : generate_metabolic_pathway_data st file with
      | error e =>
        rw [hgen] at h
        exact Option.noConfusion h
      | ok t =>
        rw [hgen] at h
        have h' : some (pySetList t.metabolic_pathways_map_numbers, t, true)
            = some (l, st1, b) := h
        simp only [Option.some.injEq, Prod.mk.injEq] at h'
        rw [← h'.1]
        exact List.nodup_dedup _
    · have h' : some (pySetList st.metabolic_pathways_map_numbers, st, false)
          = some (l, st1, b) := h
      simp only [Option.some.injEq, Prod.mk.injEq] at h'
      rw [← h'.1]
      exact List.nodup_dedup _

/-- Witness for C7: the names list of the scenario file is duplicate-free. -/
theorem C7_deduplicated_lists_witness :
    (["Metabolic pathways"] : List String).Nodup :=
  (C7_deduplicated_lists fileScenario initState).1 ["Metabolic pathways"]
    stScenario true (by decide)

/-! ## Claim C8 -/

/-- C8: looking a map number up through `map_pathway_data_by_map_number`
raises `KeyError` exactly when the number is not a key of the flat index the
accessor is backed by, and returns the recorded record (map name,
superclass, class) when it is. -/
theorem C8_lookup_by_map_number (file : List String) (st : PState)
    (num : String) (data : AList MapRecord) (st1 : PState) (b : Bool)
    (hget : runOk (get_maps_and_pathways file st) = some (data, st1, b)) :
    (alookup data num = none →
      runErr (map_pathway_data_by_map_number file st num)
        = some ("KeyError", st1)) ∧
    (∀ r, alookup data num = some r →
      runOk (map_pathway_data_by_map_number file st num)
        = some (r, st1, b)) := by
  have hg := runOk_eq_some hget
  constructor
  · intro hnone
    unfold map_pathway_data_by_map_number
    rw [hg]
    show runErr (match alookup data num with
      | none => Except.error ("KeyError", st1)
      | some r => Except.ok (r, st1, b)) = some ("KeyError", st1)
    rw [hnone]
    rfl
  · intro r hr
    unfold map_pathway_data_by_map_number
    rw [hg]
    show runOk (match alookup data num with
      | none => Except.error ("KeyError", st1)
      | some r => Except.ok (r, st1, b)) = some (r, st1, b)
    rw [hr]
    rfl

/-- Witness for C8: looking up the absent map number `99999` on the scenario
file fails with `KeyError`. -/
theorem C8_lookup_by_map_number_witness :
    runErr (map_pathway_data_by_map_number fileScenario initState ("99999"))
      = some ("KeyError", stScenario) :=
  (C8_lookup_by_map_number fileScenario initState ("99999")
    stScenario.maps_and_pathways stScenario true (by decide)).1 (by decide)

/-! ## Claim C6 -/

/-- A property preserved by every successful, reset-free loop-body step is
preserved by a reset-free successful build pass. -/
theorem generate_preserves_resetFree (P : PState → Prop)
    (hstep : ∀ st t raw, processLine st raw = Except.ok t →
      freshMarker st raw = true → P st → P t) :
    ∀ (file : List String) (st st1 : PState),
      generate_metabolic_pathway_data st file = Except.ok st1 →
      resetFree st file = true → P st → P st1 := by
  intro file
  induction file with
  | nil =>
    intro st st1 h hrf hP
    injection h with h'
    rw [← h']
    exact hP
  | cons raw rest ih =>
    intro st st1 h hrf hP
    rw [generate_cons] at h
    have hrf' : (freshMarker st raw &&
        (match processLine st raw with
         | Except.ok t => resetFree t rest
         | Except.error e => true)) = true := hrf
    rw [Bool.and_eq_true] at hrf'
    cases hp : processLine st raw with
    | error e =>
      rw [hp] at h
      exact Except.noConfusion h
    | ok t =>
      rw [hp] at h
      have h2 := hrf'.2
      rw [hp] at h2
      exact ih t st1 h h2 (hstep st t raw hp hrf'.1 hP)

/-- One reset-free step preserves the round-trip invariant between the flat
index and the hierarchy. -/
theorem roundTrip_step (st t : PState) (raw : String)
    (hp : processLine st raw = Except.ok t)
    (hfresh : freshMarker st raw = true)
    (hP : ∀ num r, alookup st.maps_and_pathways num = some r →
      ∃ inner maps,
        alookup st.metabolic_pathways r.superclass = some inner ∧
        alookup inner r.class_ = some maps ∧
        alookup maps num = some r.map_name) :
    ∀ num r, alookup t.maps_and_pathways num = some r →
      ∃ inner maps,
        alookup t.metabolic_pathways r.superclass = some inner ∧
        alookup inner r.class_ = some maps ∧
        alookup maps num = some r.map_name := by
  rcases processLine_cases hp with ⟨hsup, rfl⟩ |
    ⟨hcls, csc, inner1, hcsc, hlook, rfl⟩ |
    ⟨hmp, csc, ccl, inner1, maps1, num1, nm1, hcsc, hlook, hccl, hlook2,
      hnum, hnm, rfl⟩ | ⟨-, -, -, rfl⟩
  · intro num r hr
    have hfr : alookup st.metabolic_pathways
        (stripHashes (pyRstripNL raw)) = none := by
      simp only [freshMarker, hsup, if_true, decide_eq_true_eq] at hfresh
      exact hfresh
    obtain ⟨inner0, maps0, h1, h2, h3⟩ := hP num r hr
    have hne : r.superclass ≠ stripHashes (pyRstripNL raw) := by
      intro he
      rw [he, hfr] at h1
      exact Option.noConfusion h1
    refine ⟨inner0, maps0, ?_, h2, h3⟩
    show alookup (ainsert st.metabolic_pathways
      (stripHashes (pyRstripNL raw)) []) r.superclass = some inner0
    rw [alookup_ainsert_ne _ _ hne]
    exact h1
  · intro num r hr
    have hfr : alookup inner1 (stripHashes (pyRstripNL raw)) = none := by
      simp only [freshMarker, super_eq_false_of_class hcls,
        Bool.false_eq_true, if_false, hcls, if_true, hcsc, hlook,
        decide_eq_true_eq] at hfresh
      exact hfresh
    obtain ⟨inner0, maps0, h1, h2, h3⟩ := hP num r hr
    by_cases he : r.superclass = csc
    · have hio : inner0 = inner1 := by
        rw [he, hlook] at h1
        exact (Option.some.inj h1).symm
      subst hio
      have hnecl : r.class_ ≠ stripHashes (pyRstripNL raw) := by
        intro hcl2
        rw [hcl2, hfr] at h2
        exact Option.noConfusion h2
      refine ⟨ainsert inner0 (stripHashes (pyRstripNL raw)) [], maps0,
        ?_, ?_, h3⟩
      · show alookup (ainsert st.metabolic_pathways csc
          (ainsert inner0 (stripHashes (pyRstripNL raw)) [])) r.superclass
          = some _
        rw [he]
        exact alookup_ainsert_self _ _ _
      · rw [alookup_ainsert_ne _ _ hnecl]
        exact h2
    · refine ⟨inner0, maps0, ?_, h2, h3⟩
      show alookup (ainsert st.metabolic_pathways csc
        (ainsert inner1 (stripHashes (pyRstripNL raw)) [])) r.superclass
        = some inner0
      rw [alookup_ainsert_ne _ _ he]
      exact h1
  · intro num r hr
    have hr' : alookup (ainsert st.maps_and_pathways num1
        { map_name := nm1, superclass := csc, class_ := ccl }) num
        = some r := hr
    by_cases hnq : num = num1
    · subst hnq
      rw [alookup_ainsert_self] at hr'
      have hrr := Option.some.inj hr'
      rw [← hrr]
      refine ⟨ainsert inner1 ccl (ainsert maps1 num nm1),
        ainsert maps1 num nm1, ?_, ?_, ?_⟩
      · exact alookup_ainsert_self _ _ _
      · exact alookup_ainsert_self _ _ _
      · exact alookup_ainsert_self _ _ _
    · rw [alookup_ainsert_ne _ _ hnq] at hr'
      obtain ⟨inner0, maps0, h1, h2, h3⟩ := hP num r hr'
      by_cases he : r.superclass = csc
      · have hio : inner0 = inner1 := by
          rw [he, hlook] at h1
          exact (Option.some.inj h1).symm
        subst hio
        by_cases hce : r.class_ = ccl
        · have hmo : maps0 = maps1 := by
            rw [hce, hlook2] at h2
            exact (Option.some.inj h2).symm
          subst hmo
          refine ⟨ainsert inner0 ccl (ainsert maps0 num1 nm1),
            ainsert maps0 num1 nm1, ?_, ?_, ?_⟩
          · show alookup (ainsert st.metabolic_pathways csc
              (ainsert inner0 ccl (ainsert maps0 num1 nm1))) r.superclass
              = some _
            rw [he]
            exact alookup_ainsert_self _ _ _
          · rw [hce]
            exact alookup_ainsert_self _ _ _
          · rw [alookup_ainsert_ne _ _ hnq]
            exact h3
        · refine ⟨ainsert inner0 ccl (ainsert maps1 num1 nm1), maps0,
            ?_, ?_, h3⟩
          · show alookup (ainsert st.metabolic_pathways csc
              (ainsert inner0 ccl (ainsert maps1 num1 nm1))) r.superclass
              = some _
            rw [he]
            exact alookup_ainsert_self _ _ _
          · rw [alookup_ainsert_ne _ _ hce]
            exact h2
      · refine ⟨inner0, maps0, ?_, h2, h3⟩
        show alookup (ainsert st.metabolic_pathways csc
          (ainsert inner1 ccl (ainsert maps1 num1 nm1))) r.superclass
          = some inner0
        rw [alookup_ainsert_ne _ _ he]
        exact h1
  · exact hP

/-- C6 counterexample: on `#A`, `##B`, `01 x`, `##B` the flat index records
map `01` under superclass `A` and class `B`, but the duplicated `##B` line
reset the hierarchy entry, so the hierarchy does not contain `01` at that
(or any) position: the unconditional round-trip claim is false. -/
theorem C6_round_trip_counterexample :
    (parsePathwayFile ["#A", "##B", "01 x", "##B"]).map (fun st =>
      (alookup st.maps_and_pathways ("01"),
        (alookup st.metabolic_pathways ("A")).map (fun i =>
          (alookup i ("B")).map (fun m => alookup m ("01")))))
      = some (some { map_name := "x", superclass := "A", class_ := "B" },
          some (some none)) := by
  decide

/-- C6 amended: after a successful build pass on a file in which no
superclass-marker line re-declares a name already present in the hierarchy
and no class-marker line re-declares a class already present under the
current superclass (no entry is ever reset), every map number of the flat
index appears in the hierarchy nested under exactly the superclass and class
recorded for it, with the same map name. -/
theorem C6_round_trip (file : List String) (st1 : PState)
    (hgen : parsePathwayFile file = some st1)
    (hfree : resetFree initState file = true) :
    ∀ num r, alookup st1.maps_and_pathways num = some r →
      ∃ inner maps,
        alookup st1.metabolic_pathways r.superclass = some inner ∧
        alookup inner r.class_ = some maps ∧
        alookup maps num = some r.map_name := by
  have hg : generate_metabolic_pathway_data initState file
      = Except.ok st1 := runOk_eq_some hgen
  exact generate_preserves_resetFree
    (fun st => ∀ num r, alookup st.maps_and_pathways num = some r →
      ∃ inner maps,
        alookup st.metabolic_pathways r.superclass = some inner ∧
        alookup inner r.class_ = some maps ∧
        alookup maps num = some r.map_name)
    roundTrip_step file initState st1 hg hfree
    (fun num r h => Option.noConfusion h)

/-- Witness for C6 amended: on the scenario file, map `01100` is found in
the hierarchy under `Metabolism` / `Global and overview maps` with its
recorded name. -/
theorem C6_round_trip_witness :
    ∃ inner maps,
      alookup stScenario.metabolic_pathways ("Metabolism") = some inner ∧
      alookup inner ("Global and overview maps") = some maps ∧
      alookup maps ("01100") = some ("Metabolic pathways") :=
  C6_round_trip fileScenario stScenario (by decide) (by decide) ("01100")
    { map_name := "Metabolic pathways", superclass := "Metabolism"
      class_ := "Global and overview maps" } (by decide)

/-! ## Claim C5: monotonicity and replay lemmas -/

/-- Keys of the hierarchy only grow along a successful step. -/
theorem step_keys {st t : PState} {raw : String}
    (hp : processLine st raw = Except.ok t) :
    ∀ k, k ∈ akeys st.metabolic_pathways →
      k ∈ akeys t.metabolic_pathways := by
  rcases processLine_cases hp with ⟨-, rfl⟩ | ⟨-, csc, inner, -, -, rfl⟩ |
    ⟨-, csc, ccl, inner, maps, num, nm, -, -, -, -, -, -, rfl⟩ | ⟨-, -, -, rfl⟩
  · intro k hk
    exact (mem_akeys_ainsert _ _ _ _).mpr (Or.inr hk)
  · intro k hk
    exact (mem_akeys_ainsert _ _ _ _).mpr (Or.inr hk)
  · intro k hk
    exact (mem_akeys_ainsert _ _ _ _).mpr (Or.inr hk)
  · exact fun k hk => hk

/-- The current superclass stays bound along a successful step, and it keeps
pointing into the hierarchy. -/
theorem step_track {st t : PState} {raw : String}
    (hp : processLine st raw = Except.ok t) :
    ∀ c, st.current_super_class = some c →
      ∃ c2, t.current_super_class = some c2 ∧
        (c ∈ akeys st.metabolic_pathways →
          c2 ∈ akeys t.metabolic_pathways) := by
  rcases processLine_cases hp with ⟨-, rfl⟩ | ⟨-, csc, inner, -, -, rfl⟩ |
    ⟨-, csc, ccl, inner, maps, num, nm, -, -, -, -, -, -, rfl⟩ | ⟨-, -, -, rfl⟩
  · intro c hc
    exact ⟨_, rfl, fun _ => (mem_akeys_ainsert _ _ _ _).mpr (Or.inl rfl)⟩
  · intro c hc
    exact ⟨c, hc, fun hm => (mem_akeys_ainsert _ _ _ _).mpr (Or.inr hm)⟩
  · intro c hc
    exact ⟨c, hc, fun hm => (mem_akeys_ainsert _ _ _ _).mpr (Or.inr hm)⟩
  · intro c hc
    exact ⟨c, hc, fun hm => hm⟩

/-- Along a successful build pass, hierarchy keys only grow and the current
superclass, once bound, stays bound and pointing into the hierarchy. -/
theorem generate_keys_track (file : List String) (st st1 : PState)
    (hgen : generate_metabolic_pathway_data st file = Except.ok st1) :
    (∀ k, k ∈ akeys st.metabolic_pathways →
      k ∈ akeys st1.metabolic_pathways) ∧
    (∀ c, st.current_super_class = some c →
      ∃ c2, st1.current_super_class = some c2 ∧
        (c ∈ akeys st.metabolic_pathways →
          c2 ∈ akeys st1.metabolic_pathways)) := by
  refine generate_preserves
    (fun s => (∀ k, k ∈ akeys st.metabolic_pathways →
        k ∈ akeys s.metabolic_pathways) ∧
      (∀ c, st.current_super_class = some c →
        ∃ c2, s.current_super_class = some c2 ∧
          (c ∈ akeys st.metabolic_pathways →
            c2 ∈ akeys s.metabolic_pathways)))
    ?_ file st st1 hgen ⟨fun k hk => hk, fun c hc => ⟨c, hc, fun hm => hm⟩⟩
  intro s t raw hp hP
  refine ⟨fun k hk => step_keys hp k (hP.1 k hk), ?_⟩
  intro c hc
  obtain ⟨c2, hc2, himp⟩ := hP.2 c hc
  obtain ⟨c3, hc3, himp2⟩ := step_track hp c2 hc2
  exact ⟨c3, hc3, fun hm => himp2 (himp hm)⟩

/-- If the flat index is empty after a successful step, it was empty before
and the step was not a map record. -/
theorem processLine_idx_empty {st t : PState} {raw : String}
    (hp : processLine st raw = Except.ok t)
    (hidx : t.maps_and_pathways = []) :
    st.maps_and_pathways = [] := by
  rcases processLine_cases hp with ⟨-, rfl⟩ | ⟨-, csc, inner, -, -, rfl⟩ |
    ⟨-, csc, ccl, inner, maps, num, nm, -, -, -, -, -, -, rfl⟩ | ⟨-, -, -, rfl⟩
  · exact hidx
  · exact hidx
  · exact absurd hidx (ainsert_ne_nil _ _ _)
  · exact hidx

/-- If the flat index is empty after a successful build pass, it was empty
at every intermediate state. -/
theorem generate_idx_empty_back :
    ∀ (file : List String) (st st1 : PState),
      generate_metabolic_pathway_data st file = Except.ok st1 →
      st1.maps_and_pathways = [] → st.maps_and_pathways = [] := by
  intro file
  induction file with
  | nil =>
    intro st st1 h hidx
    injection h with h'
    rw [h']
    exact hidx
  | cons raw rest ih =>
    intro st st1 h hidx
    rw [generate_cons] at h
    cases hp : processLine st raw with
    | error e =>
      rw [hp] at h
      exact Except.noConfusion h
    | ok t =>
      rw [hp] at h
      exact processLine_idx_empty hp (ih t st1 h hidx)

/-- If the hierarchy is empty after a successful step, the step did nothing
at all. -/
theorem processLine_h_empty {st t : PState} {raw : String}
    (hp : processLine st raw = Except.ok t)
    (hh : t.metabolic_pathways = []) : t = st := by
  rcases processLine_cases hp with ⟨-, rfl⟩ | ⟨-, csc, inner, -, -, rfl⟩ |
    ⟨-, csc, ccl, inner, maps, num, nm, -, -, -, -, -, -, rfl⟩ | ⟨-, -, -, rfl⟩
  · exact absurd hh (ainsert_ne_nil _ _ _)
  · exact absurd hh (ainsert_ne_nil _ _ _)
  · exact absurd hh (ainsert_ne_nil _ _ _)
  · rfl

/-- A successful build pass that ends with an empty hierarchy did nothing:
the file contains no superclass, class, or map-record line that could
succeed, and the state is returned unchanged. -/
theorem generate_h_empty :
    ∀ (file : List String) (st st1 : PState),
      generate_metabolic_pathway_data st file = Except.ok st1 →
      st1.metabolic_pathways = [] → st1 = st := by
  intro file
  induction file with
  | nil =>
    intro st st1 h hh
    injection h with h'
    rw [h']
  | cons raw rest ih =>
    intro st st1 h hh
    rw [generate_cons] at h
    cases hp : processLine st raw with
    | error e =>
      rw [hp] at h
      exact Except.noConfusion h
    | ok t =>
      rw [hp] at h
      have h1 : st1 = t := ih t st1 h hh
      have h2 : t = st := processLine_h_empty hp (h1 ▸ hh)
      rw [h1, h2]

/-- Replaying one successful, non-map-record step from a state whose
hierarchy keys cover the original's (with a tracked current superclass)
succeeds, touches neither the flat index nor the four lists, and preserves
the coverage. -/
theorem replay_step {st t : PState} {raw : String} (u : PState)
    (hp : processLine st raw = Except.ok t)
    (hidx : t.maps_and_pathways = [])
    (hkeys : ∀ k, k ∈ akeys st.metabolic_pathways →
      k ∈ akeys u.metabolic_pathways)
    (htrack : ∀ c, st.current_super_class = some c →
      ∃ c2, u.current_super_class = some c2 ∧
        (c ∈ akeys st.metabolic_pathways →
          c2 ∈ akeys u.metabolic_pathways)) :
    ∃ v, processLine u raw = Except.ok v ∧
      v.maps_and_pathways = u.maps_and_pathways ∧
      v.metabolic_pathways_names = u.metabolic_pathways_names ∧
      v.metabolic_pathways_map_numbers
        = u.metabolic_pathways_map_numbers ∧
      v.metabolic_pathways_super_classes
        = u.metabolic_pathways_super_classes ∧
      v.metabolic_pathways_classes = u.metabolic_pathways_classes ∧
      (∀ k, k ∈ akeys t.metabolic_pathways →
        k ∈ akeys v.metabolic_pathways) ∧
      (∀ c, t.current_super_class = some c →
        ∃ c2, v.current_super_class = some c2 ∧
          (c ∈ akeys t.metabolic_pathways →
            c2 ∈ akeys v.metabolic_pathways)) := by
  rcases processLine_cases hp with ⟨hsup, rfl⟩ |
    ⟨hcls, csc, inner1, hcsc, hlook, rfl⟩ |
    ⟨-, csc, ccl, inner1, maps1, num1, nm1, -, -, -, -, -, -, rfl⟩ |
    ⟨hsc, hcl, hmp, rfl⟩
  · refine ⟨_, processLine_super u hsup, rfl, rfl, rfl, rfl, rfl, ?_, ?_⟩
    · intro k hk
      rcases (mem_akeys_ainsert _ _ _ _).mp hk with hk | hk
      · exact (mem_akeys_ainsert _ _ _ _).mpr (Or.inl hk)
      · exact (mem_akeys_ainsert _ _ _ _).mpr (Or.inr (hkeys k hk))
    · intro c hc
      have hc' : c = stripHashes (pyRstripNL raw) := (Option.some.inj hc).symm
      refine ⟨stripHashes (pyRstripNL raw), rfl, ?_⟩
      intro hmem
      exact (mem_akeys_ainsert _ _ _ _).mpr (Or.inl rfl)
  · obtain ⟨c2, hc2, himp⟩ := htrack csc hcsc
    have hc2mem : c2 ∈ akeys u.metabolic_pathways :=
      himp (mem_akeys_of_alookup hlook)
    obtain ⟨inner2, hlook2⟩ := alookup_isSome_of_mem_akeys hc2mem
    refine ⟨_, processLine_class u hcls hc2 hlook2, rfl, rfl, rfl, rfl, rfl,
      ?_, ?_⟩
    · intro k hk
      rcases (mem_akeys_ainsert _ _ _ _).mp hk with hk | hk
      · rw [hk]
        exact (mem_akeys_ainsert _ _ _ _).mpr
          (Or.inr (hkeys csc (mem_akeys_of_alookup hlook)))
      · exact (mem_akeys_ainsert _ _ _ _).mpr (Or.inr (hkeys k hk))
    · intro c hc
      refine ⟨c2, hc2, fun hmem => ?_⟩
      exact (mem_akeys_ainsert _ _ _ _).mpr (Or.inr hc2mem)
  · exact absurd hidx (ainsert_ne_nil _ _ _)
  · refine ⟨u, processLine_none u hsc hcl hmp, rfl, rfl, rfl, rfl, rfl,
      fun k hk => hkeys k hk, fun c hc => htrack c hc⟩

/-- Replaying a successful build pass whose final flat index is empty, from
its own final state, succeeds and returns the flat index and the four lists
of the replay start unchanged. -/
theorem replay_generate :
    ∀ (file : List String) (st st1 u : PState),
      generate_metabolic_pathway_data st file = Except.ok st1 →
      st1.maps_and_pathways = [] →
      (∀ k, k ∈ akeys st.metabolic_pathways →
        k ∈ akeys u.metabolic_pathways) →
      (∀ c, st.current_super_class = some c →
        ∃ c2, u.current_super_class = some c2 ∧
          (c ∈ akeys st.metabolic_pathways →
            c2 ∈ akeys u.metabolic_pathways)) →
      ∃ u1, generate_metabolic_pathway_data u file = Except.ok u1 ∧
        u1.maps_and_pathways = u.maps_and_pathways ∧
        u1.metabolic_pathways_names = u.metabolic_pathways_names ∧
        u1.metabolic_pathways_map_numbers
          = u.metabolic_pathways_map_numbers ∧
        u1.metabolic_pathways_super_classes
          = u.metabolic_pathways_super_classes ∧
        u1.metabolic_pathways_classes = u.metabolic_pathways_classes := by
  intro file
  induction file with
  | nil =>
    intro st st1 u h hidx hkeys htrack
    exact ⟨u, rfl, rfl, rfl, rfl, rfl, rfl⟩
  | cons raw rest ih =>
    intro st st1 u h hidx hkeys htrack
    rw [generate_cons] at h
    cases hp : processLine st raw with
    | error e =>
      rw [hp] at h
      exact Except.noConfusion h
    | ok t =>
      rw [hp] at h
      have htidx : t.maps_and_pathways = [] :=
        generate_idx_empty_back rest t st1 h hidx
      obtain ⟨v, hv, hv0, hv1, hv2, hv3, hv4, hvkeys, hvtrack⟩ :=
        replay_step u hp htidx hkeys htrack
      obtain ⟨u1, hu1, he0, he1, he2, he3, he4⟩ :=
        ih t st1 v h hidx hvkeys hvtrack
      refine ⟨u1, ?_, ?_, ?_, ?_, ?_, ?_⟩
      · rw [generate_cons, hv]
        exact hu1
      · rw [he0, hv0]
      · rw [he1, hv1]
      · rw [he2, hv2]
      · rw [he3, hv3]
      · rw [he4, hv4]

/-- Re-running the build pass from its own final state, when that pass left
the flat index empty, succeeds and changes neither the flat index nor any of
the four lists. -/
theorem second_build_core (file : List String) (st st1 : PState)
    (hgen : generate_metabolic_pathway_data st file = Except.ok st1)
    (hempty : st1.maps_and_pathways = []) :
    ∃ u1, generate_metabolic_pathway_data st1 file = Except.ok u1 ∧
      u1.maps_and_pathways = st1.maps_and_pathways ∧
      u1.metabolic_pathways_names = st1.metabolic_pathways_names ∧
      u1.metabolic_pathways_map_numbers
        = st1.metabolic_pathways_map_numbers ∧
      u1.metabolic_pathways_super_classes
        = st1.metabolic_pathways_super_classes ∧
      u1.metabolic_pathways_classes = st1.metabolic_pathways_classes := by
  obtain ⟨hkeys, htrack⟩ := generate_keys_track file st st1 hgen
  exact replay_generate file st st1 st1 hgen hempty hkeys htrack

theorem length_beq_zero_true {α : Type} {l : List α} (h : l = []) :
    (l.length == 0) = true := by
  rw [h]
  rfl

theorem length_beq_zero_ne {α : Type} {l : List α} (h : l ≠ []) :
    ¬((l.length == 0) = true) := by
  rw [beq_iff_eq, List.length_eq_zero]
  exact h

/-- Second-call behaviour, generically for the four accessors that guard on
the flat index and return a deduplicated list view `f`. -/
theorem listAccessor_second
    (A : List String → PState →
      Except (String × PState) (List String × PState × Bool))
    (f : PState → List String)
    (hA : ∀ fl s, A fl s = if s.maps_and_pathways.length == 0 then
        match generate_metabolic_pathway_data s fl with
        | Except.error e => Except.error e
        | Except.ok t => Except.ok (pySetList (f t), t, true)
      else Except.ok (pySetList (f s), s, false))
    (hpres : ∀ u1 s1 : PState,
      u1.metabolic_pathways_names = s1.metabolic_pathways_names →
      u1.metabolic_pathways_map_numbers = s1.metabolic_pathways_map_numbers →
      u1.metabolic_pathways_super_classes
        = s1.metabolic_pathways_super_classes →
      u1.metabolic_pathways_classes = s1.metabolic_pathways_classes →
      f u1 = f s1)
    (file : List String) (st : PState) (l : List String) (st1 : PState)
    (b : Bool) (h : runOk (A file st) = some (l, st1, b)) :
    ∃ st2 b2, runOk (A file st1) = some (l, st2, b2) ∧
      (st1.maps_and_pathways ≠ [] → st2 = st1 ∧ b2 = false) := by
  rw [hA] at h
  by_cases hg : st.maps_and_pathways = []
  · rw [if_pos (length_beq_zero_true hg)] at h
    cases hgen : generate_metabolic_pathway_data st file with
    | error e =>
      rw [hgen] at h
      exact Option.noConfusion h
    | ok t =>
      rw [hgen] at h
      have h' : some (pySetList (f t), t, true) = some (l, st1, b) := h
      simp only [Option.some.injEq, Prod.mk.injEq] at h'
      obtain ⟨hl, hst, hb⟩ := h'
      rw [hst] at hgen hl
      by_cases hni : st1.maps_and_pathways = []
      · obtain ⟨u1, hu1, hz0, hz1, hz2, hz3, hz4⟩ :=
          second_build_core file st st1 hgen hni
        refine ⟨u1, true, ?_, fun hc => absurd hni hc⟩
        rw [hA, if_pos (length_beq_zero_true hni), hu1]
        show some (pySetList (f u1), u1, true) = some (l, u1, true)
        rw [← hl, hpres u1 st1 hz1 hz2 hz3 hz4]
      · refine ⟨st1, false, ?_, fun hc => ⟨rfl, rfl⟩⟩
        rw [hA, if_neg (length_beq_zero_ne hni)]
        show some (pySetList (f st1), st1, false) = some (l, st1, false)
        rw [← hl]
  · rw [if_neg (length_beq_zero_ne hg)] at h
    have h' : some (pySetList (f st), st, false) = some (l, st1, b) := h
    simp only [Option.some.injEq, Prod.mk.injEq] at h'
    obtain ⟨hl, hst, hb⟩ := h'
    subst hst
    refine ⟨st, false, ?_, fun hc => ⟨rfl, rfl⟩⟩
    rw [hA, if_neg (length_beq_zero_ne hg)]
    show some (pySetList (f st), st, false) = some (l, st, false)
    rw [← hl]

/-- Second-call behaviour of the flat-index accessor. -/
theorem getMaps_second (file : List String) (st : PState)
    (d : AList MapRecord) (st1 : PState) (b : Bool)
    (h : runOk (get_maps_and_pathways file st) = some (d, st1, b)) :
    ∃ st2 b2, runOk (get_maps_and_pathways file st1) = some (d, st2, b2) ∧
      (st1.maps_and_pathways ≠ [] → st2 = st1 ∧ b2 = false) := by
  unfold get_maps_and_pathways at h
  by_cases hg : st.maps_and_pathways = []
  · rw [if_pos (length_beq_zero_true hg)] at h
    cases hgen : generate_metabolic_pathway_data st file with
    | error e =>
      rw [hgen] at h
      exact Option.noConfusion h
    | ok t =>
      rw [hgen] at h
      have h' : some (t.maps_and_pathways, t, true) = some (d, st1, b) := h
      simp only [Option.some.injEq, Prod.mk.injEq] at h'
      obtain ⟨hd, hst, hb⟩ := h'
      rw [hst] at hgen hd
      by_cases hni : st1.maps_and_pathways = []
      · obtain ⟨u1, hu1, hz0, hz1, hz2, hz3, hz4⟩ :=
          second_build_core file st st1 hgen hni
        refine ⟨u1, true, ?_, fun hc => absurd hni hc⟩
        unfold get_maps_and_pathways
        rw [if_pos (length_beq_zero_true hni), hu1]
        show some (u1.maps_and_pathways, u1, true) = some (d, u1, true)
        rw [← hd, hz0]
      · refine ⟨st1, false, ?_, fun hc => ⟨rfl, rfl⟩⟩
        unfold get_maps_and_pathways
        rw [if_neg (length_beq_zero_ne hni)]
        show some (st1.maps_and_pathways, st1, false) = some (d, st1, false)
        rw [← hd]
  · rw [if_neg (length_beq_zero_ne hg)] at h
    have h' : some (st.maps_and_pathways, st, false) = some (d, st1, b) := h
    simp only [Option.some.injEq, Prod.mk.injEq] at h'
    obtain ⟨hd, hst, hb⟩ := h'
    subst hst
    refine ⟨st, false, ?_, fun hc => ⟨rfl, rfl⟩⟩
    unfold get_maps_and_pathways
    rw [if_neg (length_beq_zero_ne hg)]
    show some (st.maps_and_pathways, st, false) = some (d, st, false)
    rw [← hd]

/-- Second-call behaviour of the hierarchy accessor (guarded on the
hierarchy itself). -/
theorem pathwaysAndMaps_second (file : List String) (st : PState)
    (d : AList (AList (AList String))) (st1 : PState) (b : Bool)
    (h : runOk (pathways_and_maps file st) = some (d, st1, b)) :
    ∃ st2 b2, runOk (pathways_and_maps file st1) = some (d, st2, b2) ∧
      (st1.metabolic_pathways ≠ [] → st2 = st1 ∧ b2 = false) := by
  unfold pathways_and_maps at h
  by_cases hg : st.metabolic_pathways = []
  · rw [if_pos (length_beq_zero_true hg)] at h
    cases hgen : generate_metabolic_pathway_data st file with
    | error e =>
      rw [hgen] at h
      exact Option.noConfusion h
    | ok t =>
      rw [hgen] at h
      have h' : some (t.metabolic_pathways, t, true) = some (d, st1, b) := h
      simp only [Option.some.injEq, Prod.mk.injEq] at h'
      obtain ⟨hd, hst, hb⟩ := h'
      rw [hst] at hgen hd
      by_cases hni : st1.metabolic_pathways = []
      · have hsame : st1 = st := generate_h_empty file st st1 hgen hni
        rw [hsame] at hgen
        refine ⟨st1, true, ?_, fun hc => absurd hni hc⟩
        unfold pathways_and_maps
        rw [if_pos (length_beq_zero_true hni)]
        rw [show generate_metabolic_pathway_data st1 file
          = generate_metabolic_pathway_data st file from by rw [hsame]]
        rw [show generate_metabolic_pathway_data st file
          = Except.ok st1 from by rw [hsame]; exact hgen]
        show some (st1.metabolic_pathways, st1, true) = some (d, st1, true)
        rw [← hd]
      · refine ⟨st1, false, ?_, fun hc => ⟨rfl, rfl⟩⟩
        unfold pathways_and_maps
        rw [if_neg (length_beq_zero_ne hni)]
        show some (st1.metabolic_pathways, st1, false) = some (d, st1, false)
        rw [← hd]
  · rw [if_neg (length_beq_zero_ne hg)] at h
    have h' : some (st.metabolic_pathways, st, false) = some (d, st1, b) := h
    simp only [Option.some.injEq, Prod.mk.injEq] at h'
    obtain ⟨hd, hst, hb⟩ := h'
    subst hst
    refine ⟨st, false, ?_, fun hc => ⟨rfl, rfl⟩⟩
    unfold pathways_and_maps
    rw [if_neg (length_beq_zero_ne hg)]
    show some (st.metabolic_pathways, st, false) = some (d, st, false)
    rw [← hd]

/-- C5 counterexample: on the one-line file `#Alpha` (no map records, so
the flat index stays empty) each call of `pathways_names` runs the build
pass again — the returned flag records that the guard re-triggered on the
second call — so the build pass does not run at most once. -/
theorem C5_rebuild_counterexample :
    runOk (pathways_names ["#Alpha"] initState)
      = some (([] : List String), stAlpha, true) ∧
    runOk (pathways_names ["#Alpha"] stAlpha)
      = some (([] : List String), stAlpha, true) := by
  constructor
  · decide
  · decide

/-- C5 amended: for every input file and each of the six accessors, a second
call returns exactly the result of the first call; whenever the first call
leaves the accessor's guard structure non-empty (the flat index for all
accessors except the hierarchy accessor, which guards on the hierarchy) the
second call does not run the build pass and leaves the state unchanged.
When the guard structure is still empty after the first call (a file with no
map records), the second call does re-run the build pass, but that re-run
still returns the identical result. -/
theorem C5_accessor_idempotence (file : List String) (st : PState) :
    (∀ d st1 b, runOk (get_maps_and_pathways file st) = some (d, st1, b) →
      ∃ st2 b2, runOk (get_maps_and_pathways file st1) = some (d, st2, b2) ∧
        (st1.maps_and_pathways ≠ [] → st2 = st1 ∧ b2 = false)) ∧
    (∀ d st1 b, runOk (pathways_and_maps file st) = some (d, st1, b) →
      ∃ st2 b2, runOk (pathways_and_maps file st1) = some (d, st2, b2) ∧
        (st1.metabolic_pathways ≠ [] → st2 = st1 ∧ b2 = false)) ∧
    (∀ l st1 b, runOk (pathways_names file st) = some (l, st1, b) →
      ∃ st2 b2, runOk (pathways_names file st1) = some (l, st2, b2) ∧
        (st1.maps_and_pathways ≠ [] → st2 = st1 ∧ b2 = false)) ∧
    (∀ l st1 b, runOk (pathways_super_classes file st) = some (l, st1, b) →
      ∃ st2 b2, runOk (pathways_super_classes file st1)
          = some (l, st2, b2) ∧
        (st1.maps_and_pathways ≠ [] → st2 = st1 ∧ b2 = false)) ∧
    (∀ l st1 b, runOk (pathways_classes file st) = some (l, st1, b) →
      ∃ st2 b2, runOk (pathways_classes file st1) = some (l, st2, b2) ∧
        (st1.maps_and_pathways ≠ [] → st2 = st1 ∧ b2 = false)) ∧
    (∀ l st1 b, runOk (pathways_map_numbers file st) = some (l, st1, b) →
      ∃ st2 b2, runOk (pathways_map_numbers file st1) = some (l, st2, b2) ∧
        (st1.maps_and_pathways ≠ [] → st2 = st1 ∧ b2 = false)) := by
  refine ⟨?_, ?_, ?_, ?_, ?_, ?_⟩
  · exact fun d st1 b h => getMaps_second file st d st1 b h
  · exact fun d st1 b h => pathwaysAndMaps_second file st d st1 b h
  · exact fun l st1 b h => listAccessor_second pathways_names
      (fun s => s.metabolic_pathways_names) (fun fl s => rfl)
      (fun u1 s1 h1 h2 h3 h4 => h1) file st l st1 b h
  · exact fun l st1 b h => listAccessor_second pathways_super_classes
      (fun s => s.metabolic_pathways_super_classes) (fun fl s => rfl)
      (fun u1 s1 h1 h2 h3 h4 => h3) file st l st1 b h
  · exact fun l st1 b h => listAccessor_second pathways_classes
      (fun s => s.metabolic_pathways_classes) (fun fl s => rfl)
      (fun u1 s1 h1 h2 h3 h4 => h4) file st l st1 b h
  · exact fun l st1 b h => listAccessor_second pathways_map_numbers
      (fun s => s.metabolic_pathways_map_numbers) (fun fl s => rfl)
      (fun u1 s1 h1 h2 h3 h4 => h2) file st l st1 b h

/-- Witness for C5 amended: on the scenario file (whose flat index is
non-empty after the build), a second `pathways_names` call returns the same
list without rebuilding. -/
theorem C5_accessor_idempotence_witness :
    ∃ st2 b2, runOk (pathways_names fileScenario stScenario)
        = some ((["Metabolic pathways"] : List String), st2, b2) ∧
      (stScenario.maps_and_pathways ≠ [] → st2 = stScenario ∧ b2 = false) :=
  (C5_accessor_idempotence fileScenario initState).2.2.1
    ["Metabolic pathways"] stScenario true (by decide)

end PathwayListFile
